import Mathlib

/-!
The IPv4 local-out hook of vpr-splatter, `src/splatter.c`.

A shallow embedding of `set_ct_mark`, `tcp_skb`, `socket_root_root`,
`nf_ipv4_hook_func`, `_module_entry` and `_module_exit`, followed by theorems
about them.

Modelling conventions:

* C pointers that the code tests for NULL are `Option` values.
* A flow record (`struct nf_conn`) is addressed by a `Nat` (its pointer); the
  connection-tracking state is a table from addresses to records, passed in and
  returned explicitly. The hook returns its verdict together with the table it
  leaves behind.
* `u32` values are `Nat`; a store into `ct->mark` truncates with `% 2 ^ 32`.
* `printk` and the RCU read section have no effect on the result and are not
  represented. The spin lock has no effect on the sequential result either and
  is absent from `nf_ipv4_hook_func`; the order of reads, stores, lock and
  unlock in one call is given separately by `nf_ipv4_hook_func_accesses`.
* `nf_register_net_hook` is a kernel function; its result is a parameter of
  `_module_entry`.
* `skb_to_full_sk` is a kernel helper whose body is outside this repository; it is
  taken as a parameter of the hook.
-/

namespace Splatter

/-! ## Constants -/

/-- The allow bit of the connection mark: `#define CT_ALLOW_MARK 0x1`. -/
def CT_ALLOW_MARK : Nat := 0x1

/-- Netfilter verdict `NF_DROP` (value from `linux/netfilter.h`). -/
def NF_DROP : Nat := 0

/-- Netfilter verdict `NF_ACCEPT` (value from `linux/netfilter.h`). -/
def NF_ACCEPT : Nat := 1

/-- IP protocol number of TCP (value from `linux/in.h`). -/
def IPPROTO_TCP : Nat := 6

/-- Conntrack info `IP_CT_NEW` (value from `nf_conntrack_common.h`, where the
enumeration is `IP_CT_ESTABLISHED = 0`, `IP_CT_RELATED = 1`, `IP_CT_NEW = 2`,
`IP_CT_IS_REPLY = 3`, and the reply variants `3` and `4`). -/
def IP_CT_NEW : Nat := 2

/-- The user id of root, `GLOBAL_ROOT_UID` (value from `linux/uidgid.h`). -/
def GLOBAL_ROOT_UID : Nat := 0

/-- The group id of root, `GLOBAL_ROOT_GID` (value from `linux/uidgid.h`). -/
def GLOBAL_ROOT_GID : Nat := 0

/-- The modulus of `u32` arithmetic. -/
def U32_MOD : Nat := 2 ^ 32

/-- The C expression `~CT_ALLOW_MARK` after conversion to `u32`: the `int` value
`~1 = -2` becomes `2 ^ 32 - 2 = 0xFFFFFFFE`. -/
def NOT_CT_ALLOW_MARK : Nat := (U32_MOD - 1) - CT_ALLOW_MARK

/-! ## Data model -/

/-- The fields of `struct cred` that the code reads. -/
structure cred where
  sgid : Nat
  egid : Nat
deriving DecidableEq, Repr

/-- The field of `struct file` that the code reads; `f_cred` may be NULL. -/
structure file where
  f_cred : Option cred
deriving DecidableEq, Repr

/-- The field of `struct socket` that the code reads; `file` may be NULL. -/
structure socket where
  file : Option file
deriving DecidableEq, Repr

/-- The fields of `struct sock` that the code reads; `sk_socket` may be NULL. -/
structure sock where
  sk_uid : Nat
  sk_protocol : Nat
  sk_socket : Option socket
deriving DecidableEq, Repr

/-- The field of `struct iphdr` that the code reads. -/
structure iphdr where
  protocol : Nat
deriving DecidableEq, Repr

/-- The field of `struct nf_conn` that the code reads and writes. -/
structure nf_conn where
  mark : Nat
deriving DecidableEq, Repr

/-- The connection-tracking state: the flow record stored at each address. -/
abbrev ct_table := Nat → nf_conn

/-- What the code reads from `struct sk_buff`: `network_header` is the result of
`ip_hdr(skb)`, `sk` is `skb->sk`, and `nfct` with `ctinfo` is what
`nf_ct_get(skb, &ctinfo)` yields (the address of the flow record, if any, and
the conntrack info, which is produced whether or not a record is attached). -/
structure sk_buff where
  network_header : Option iphdr
  sk : Option sock
  nfct : Option Nat
  ctinfo : Nat
deriving DecidableEq, Repr

/-! ## Operations -/

/-- Equality of user ids, `uid_eq`. -/
def uid_eq (a b : Nat) : Bool := a == b

/-- Equality of group ids, `gid_eq`. -/
def gid_eq (a b : Nat) : Bool := a == b

/-- The lookup `nf_ct_get(skb, &ctinfo)`: the attached flow record and the
conntrack info. -/
def nf_ct_get (skb : sk_buff) : Option Nat × Nat := (skb.nfct, skb.ctinfo)

/-- The store of `set_ct_mark`: `ct->mark = mark` on the record at address `ct`
(both preprocessor branches are the same store under the record's lock). -/
def set_ct_mark (cts : ct_table) (ct : Nat) (mark : Nat) : ct_table :=
  fun a => if a = ct then { cts a with mark := mark % U32_MOD } else cts a

/-- The test `tcp_skb`:
`skb && ip_hdr(skb) && ip_hdr(skb)->protocol == IPPROTO_TCP`. -/
def tcp_skb (skb : Option sk_buff) : Bool :=
  match skb with
  | none => false
  | some s =>
    match s.network_header with
    | none => false
    | some ih => ih.protocol == IPPROTO_TCP

/-- The predicate `socket_root_root`: the user id is root and the credential of
the socket's open file has root as saved or effective group id. -/
def socket_root_root (sk : sock) : Bool :=
  let kuid := sk.sk_uid
  if !uid_eq kuid GLOBAL_ROOT_UID then
    false
  else
    match sk.sk_socket with
    | none => false
    | some so =>
      match so.file with
      | none => false
      | some f =>
        match f.f_cred with
        | none => false
        | some fcred =>
          gid_eq fcred.sgid GLOBAL_ROOT_GID || gid_eq fcred.egid GLOBAL_ROOT_GID

/-- The hook `nf_ipv4_hook_func`. It returns the verdict and the
connection-tracking table after the call. The parameter `skb_to_full_sk` is the
kernel helper of that name. -/
def nf_ipv4_hook_func (skb_to_full_sk : sk_buff → Option sock)
    (skb : Option sk_buff) (cts : ct_table) : Nat × ct_table :=
  if !tcp_skb skb then
    (NF_ACCEPT, cts)
  else
    match skb with
    | none => (NF_ACCEPT, cts) -- not reached: `tcp_skb` rejects a null packet
    | some s =>
      match nf_ct_get s with
      | (some ct, ctinfo) =>
        if ctinfo != IP_CT_NEW then
          (if (cts ct).mark &&& CT_ALLOW_MARK != 0 then NF_ACCEPT else NF_DROP, cts)
        else
          match s.sk with
          | some _ =>
            let allow :=
              match skb_to_full_sk s with
              | some sk =>
                if sk.sk_protocol == IPPROTO_TCP then socket_root_root sk else false
              | none => false
            if allow then
              let old := (cts ct).mark
              (NF_ACCEPT, set_ct_mark cts ct (old ||| CT_ALLOW_MARK))
            else
              let old := (cts ct).mark
              (NF_DROP, set_ct_mark cts ct (old &&& NOT_CT_ALLOW_MARK))
          | none => (NF_DROP, cts)
      | (none, _) => (NF_DROP, cts)

/-- Processing a sequence of packets in order: each call of the hook starts from
the table the previous call left. Returns the verdicts in order and the final
table. -/
def run_hook (skb_to_full_sk : sk_buff → Option sock) :
    List sk_buff → ct_table → List Nat × ct_table
  | [], cts => ([], cts)
  | p :: ps, cts =>
    let r := nf_ipv4_hook_func skb_to_full_sk (some p) cts
    let rest := run_hook skb_to_full_sk ps r.2
    (r.1 :: rest.1, rest.2)

/-! ## Concrete inputs used below -/

/-- A table in which every flow record has mark `m`. -/
def const_table (m : Nat) : ct_table := fun _ => { mark := m }

/-- The identity resolution of the full socket: the packet's own socket. -/
def own_sk (s : sk_buff) : Option sock := s.sk

/-- A socket of protocol `proto` and user id `uid` with an open file whose
credential has saved group id `sgid` and effective group id `egid`. -/
def mk_sock (uid proto sgid egid : Nat) : sock :=
  { sk_uid := uid, sk_protocol := proto,
    sk_socket := some { file := some { f_cred := some { sgid := sgid, egid := egid } } } }

/-- A TCP packet with conntrack info `ctinfo`, attached to the flow record at
address `0`, carrying socket `sk`. -/
def mk_skb (ctinfo : Nat) (sk : Option sock) : sk_buff :=
  { network_header := some { protocol := IPPROTO_TCP }, sk := sk, nfct := some 0,
    ctinfo := ctinfo }

/-! ## Reference predicate for `socket_root_root` -/

/-- The open-file credential of a socket, when the socket object, its file and
the file's credential are all present. -/
def open_file_cred (sk : sock) : Option cred :=
  match sk.sk_socket with
  | none => none
  | some so =>
    match so.file with
    | none => none
    | some f => f.f_cred

/-- The reference predicate that `socket_root_root` is compared with, written
from the specification: the user id is the privileged user id, the open-file
credential is available, and its saved or its effective group id is the
privileged group id. -/
def socket_root_root_ref (sk : sock) : Bool :=
  decide (sk.sk_uid = 0) &&
    (match open_file_cred sk with
     | none => false
     | some c => decide (c.sgid = 0) || decide (c.egid = 0))

/-! ## Accesses to the mark and the record's lock, in program order -/

/-- One access of the hook to a flow record: `read_once ct` is
`READ_ONCE(ct->mark)`, `spin_lock_bh ct` and `spin_unlock_bh ct` take and release
`ct->lock`, `store_mark ct v` is the assignment `ct->mark = v`. -/
inductive mark_access where
  | read_once (ct : Nat)
  | spin_lock_bh (ct : Nat)
  | store_mark (ct : Nat) (v : Nat)
  | spin_unlock_bh (ct : Nat)
deriving DecidableEq, Repr

/-- The flow record that an access concerns. -/
def access_record : mark_access → Nat
  | .read_once ct => ct
  | .spin_lock_bh ct => ct
  | .store_mark ct _ => ct
  | .spin_unlock_bh ct => ct

/-- The accesses of `set_ct_mark(ct, mark)`, in program order: lock, store,
unlock (both preprocessor branches are the same three statements). -/
def set_ct_mark_accesses (ct : Nat) (mark : Nat) : List mark_access :=
  [.spin_lock_bh ct, .store_mark ct (mark % U32_MOD), .spin_unlock_bh ct]

/-- The accesses of one call of `nf_ipv4_hook_func` to flow records, in program
order. The control flow is that of `nf_ipv4_hook_func`; in the two branches that
write a verdict the statement `u32 old = READ_ONCE(ct->mark);` comes first and
the call of `set_ct_mark` after it. -/
def nf_ipv4_hook_func_accesses (skb_to_full_sk : sk_buff → Option sock)
    (skb : Option sk_buff) (cts : ct_table) : List mark_access :=
  if !tcp_skb skb then
    []
  else
    match skb with
    | none => []
    | some s =>
      match nf_ct_get s with
      | (some ct, ctinfo) =>
        if ctinfo != IP_CT_NEW then
          [.read_once ct]
        else
          match s.sk with
          | some _ =>
            let allow :=
              match skb_to_full_sk s with
              | some sk =>
                if sk.sk_protocol == IPPROTO_TCP then socket_root_root sk else false
              | none => false
            if allow then
              let old := (cts ct).mark
              .read_once ct :: set_ct_mark_accesses ct (old ||| CT_ALLOW_MARK)
            else
              let old := (cts ct).mark
              .read_once ct :: set_ct_mark_accesses ct (old &&& NOT_CT_ALLOW_MARK)
          | none => []
      | (none, _) => []

/-- Whether every read and every store of a mark in a sequence of accesses
happens while the lock of the same record is held; `held` lists the records
whose lock is held at the start. -/
def all_accesses_locked : List Nat → List mark_access → Bool
  | _, [] => true
  | held, .read_once ct :: es => held.contains ct && all_accesses_locked held es
  | held, .store_mark ct _ :: es => held.contains ct && all_accesses_locked held es
  | held, .spin_lock_bh ct :: es => all_accesses_locked (ct :: held) es
  | held, .spin_unlock_bh ct :: es => all_accesses_locked (held.erase ct) es

/-- Whether the stores of a sequence of accesses lie in critical sections: a
store happens only while the lock of the same record is held, a lock is taken
only when it is not held, a lock is released only when it is held, and no lock
is held at the end; reads are not constrained. `held` lists the records whose
lock is held at the start. -/
def stores_in_critical_sections : List Nat → List mark_access → Bool
  | held, [] => held.isEmpty
  | held, .read_once _ :: es => stores_in_critical_sections held es
  | held, .store_mark ct _ :: es =>
    held.contains ct && stores_in_critical_sections held es
  | held, .spin_lock_bh ct :: es =>
    !held.contains ct && stores_in_critical_sections (ct :: held) es
  | held, .spin_unlock_bh ct :: es =>
    held.contains ct && stores_in_critical_sections (held.erase ct) es

/-- Whether an access is a read of the mark. -/
def is_read_once : mark_access → Bool
  | .read_once _ => true
  | _ => false

/-- The effect of a sequence of accesses on the table: each store is applied in
order. -/
def apply_accesses : List mark_access → ct_table → ct_table
  | [], cts => cts
  | .store_mark ct v :: es, cts => apply_accesses es (set_ct_mark cts ct v)
  | _ :: es, cts => apply_accesses es cts

/-! ## Two threads on one flow record -/

/-- One step of a thread that works on a single flow record, with a local
variable `old`: `load` is `old = READ_ONCE(ct->mark)`, `lock` and `unlock` are
`spin_lock_bh(&ct->lock)` and `spin_unlock_bh(&ct->lock)`, `store f` is
`ct->mark = f old` truncated to 32 bits. -/
inductive thread_step where
  | load
  | lock
  | store (f : Nat → Nat)
  | unlock

/-- A thread: the steps it still has to run and its local variable `old`. -/
structure thread where
  steps : List thread_step
  old : Nat

/-- The flow record shared by the two threads: its mark and the thread that
holds its lock, if any (`false` is the first thread, `true` the second). -/
structure shared_ct where
  mark : Nat
  owner : Option Bool

/-- The steps of the verdict write of `nf_ipv4_hook_func` on a new flow, lines
125 to 137 with `set_ct_mark` inlined: read the old mark, take the lock, store
the old mark with the allow bit set (`allow`) or cleared, release the lock. -/
def verdict_write_steps (allow : Bool) : List thread_step :=
  [.load, .lock,
   .store (fun old => if allow then old ||| CT_ALLOW_MARK else old &&& NOT_CT_ALLOW_MARK),
   .unlock]

/-- Another writer of the same mark that sets the bits `bits` and keeps its read
and its store in one critical section of the record's lock. -/
def locked_or_steps (bits : Nat) : List thread_step :=
  [.lock, .load, .store (fun old => old ||| bits), .unlock]

/-- Thread `me` runs its next step on the shared record. The result is `none`
when the thread has finished or waits for a lock that is held. -/
def run_step (me : Bool) (t : thread) (c : shared_ct) : Option (thread × shared_ct) :=
  match t.steps with
  | [] => none
  | .load :: rest => some ({ steps := rest, old := c.mark }, c)
  | .lock :: rest =>
    match c.owner with
    | none => some ({ t with steps := rest }, { c with owner := some me })
    | some _ => none
  | .store f :: rest => some ({ t with steps := rest }, { c with mark := f t.old % U32_MOD })
  | .unlock :: rest => some ({ t with steps := rest }, { c with owner := none })

/-- Runs two threads under a schedule that names, step by step, the thread that
runs next. Returns the final mark when both threads have finished and every
scheduled step could run. -/
def run_schedule : List Bool → thread → thread → shared_ct → Option Nat
  | [], a, b, c =>
    match a.steps, b.steps with
    | [], [] => some c.mark
    | _, _ => none
  | false :: sched, a, b, c =>
    match run_step false a c with
    | some (a1, c1) => run_schedule sched a1 b c1
    | none => none
  | true :: sched, a, b, c =>
    match run_step true b c with
    | some (b1, c1) => run_schedule sched a b1 c1
    | none => none

/-- One of the two final states of a verdict write on a record whose mark was
`m`: `m` with the allow bit set, or `m` with the allow bit cleared. -/
def verdict_state (m x : Nat) : Prop :=
  x = (m ||| CT_ALLOW_MARK) % U32_MOD ∨ x = (m &&& NOT_CT_ALLOW_MARK) % U32_MOD

/-- The mark `m` itself or one of the two final states of a verdict write. -/
def verdict_or_initial (m x : Nat) : Prop :=
  x = m ∨ verdict_state m x

/-- Where a thread that runs `verdict_write_steps allow` can be, on a record
whose mark was `m` at the start: before its read; after its read, with a value
read that is `m` or a final state; or after its store, with a mark that is a
final state. -/
def verdict_thread_inv (m : Nat) (allow : Bool) (t : thread) (c : shared_ct) : Prop :=
  t.steps = verdict_write_steps allow ∨
  (t.steps = (verdict_write_steps allow).drop 1 ∧ verdict_or_initial m t.old) ∨
  (t.steps = (verdict_write_steps allow).drop 2 ∧ verdict_or_initial m t.old) ∨
  ((t.steps = (verdict_write_steps allow).drop 3 ∨ t.steps = []) ∧
    verdict_state m c.mark)

/-! ## Module entry and exit -/

/-- Protocol family `NFPROTO_IPV4` (value from `linux/netfilter.h`). -/
def NFPROTO_IPV4 : Nat := 2

/-- Hook number `NF_INET_LOCAL_OUT` (value from `linux/netfilter.h`). -/
def NF_INET_LOCAL_OUT : Nat := 3

/-- Hook priority `NF_IP_PRI_FILTER` (value from `linux/netfilter_ipv4.h`). -/
def NF_IP_PRI_FILTER : Int := 0

/-- Error number `EINVAL` (value from `asm-generic/errno-base.h`). -/
def EINVAL : Int := 22

/-- The type of a hook function as embedded here. -/
abbrev nf_hookfn := (sk_buff → Option sock) → Option sk_buff → ct_table → Nat × ct_table

/-- The fields of `struct nf_hook_ops` that the code assigns; `hook` is a
function pointer, null in the zero-initialised global. -/
structure nf_hook_ops where
  hook : Option nf_hookfn
  pf : Nat
  hooknum : Nat
  priority : Int

/-- A call into the netfilter core, with the hook record it was given. -/
inductive net_hook_call where
  | register (ops : nf_hook_ops)
  | unregister (ops : nf_hook_ops)

/-- The state the module entry and exit work on: the global `g_nf_hook_op` and
the calls made into the netfilter core so far, oldest first. -/
structure module_state where
  g_nf_hook_op : nf_hook_ops
  calls : List net_hook_call

/-- The function `_module_entry`. The parameter `nf_register_net_hook` is the
result the kernel function of that name returns for a hook record. Returns the
`int` result and the state after the call. -/
def _module_entry (nf_register_net_hook : nf_hook_ops → Int) (st : module_state) :
    Int × module_state :=
  let g1 := { st.g_nf_hook_op with hook := some nf_ipv4_hook_func }
  let g2 := { g1 with pf := NFPROTO_IPV4 }
  let g3 := { g2 with hooknum := NF_INET_LOCAL_OUT }
  let g4 := { g3 with priority := NF_IP_PRI_FILTER }
  let st1 : module_state := { g_nf_hook_op := g4, calls := st.calls ++ [.register g4] }
  if nf_register_net_hook g4 != 0 then
    (-EINVAL, st1)
  else
    (0, st1)

/-- The function `_module_exit`: `nf_unregister_net_hook` on the global. -/
def _module_exit (st : module_state) : module_state :=
  { st with calls := st.calls ++ [.unregister st.g_nf_hook_op] }

/-! ## Bit-level facts about the mark -/

theorem testBit_one (i : Nat) : Nat.testBit 1 i = decide (i = 0) := by
  cases i with
  | zero => simp
  | succ n => simp [Nat.testBit_succ]

theorem testBit_not_allow (i : Nat) :
    Nat.testBit 4294967294 i = (decide (i < 32) && !decide (i = 0)) := by
  have h := Nat.testBit_two_pow_sub_succ (x := 1) (n := 32) (by norm_num) i
  rw [testBit_one] at h
  simpa using h

theorem NOT_CT_ALLOW_MARK_eq : NOT_CT_ALLOW_MARK = 4294967294 := by
  decide

theorem mod_and_one (x : Nat) : (x % 2 ^ 32) &&& 1 = x &&& 1 := by
  apply Nat.eq_of_testBit_eq
  intro i
  simp only [Nat.testBit_and, Nat.testBit_mod_two_pow, testBit_one]
  cases h : decide (i = 0) <;> simp
  simp at h
  subst h
  simp

theorem or_allow_and_one (x : Nat) : (x ||| 1) &&& 1 = 1 := by
  apply Nat.eq_of_testBit_eq
  intro i
  simp only [Nat.testBit_and, Nat.testBit_or, testBit_one]
  cases h : decide (i = 0) <;> simp

theorem and_not_allow_and_one (x : Nat) : (x &&& 4294967294) &&& 1 = 0 := by
  apply Nat.eq_of_testBit_eq
  intro i
  simp only [Nat.testBit_and, testBit_not_allow, testBit_one, Nat.zero_testBit]
  cases h : decide (i = 0) <;> simp

theorem or_allow_keeps (x : Nat) :
    ((x ||| 1) % 2 ^ 32) &&& 4294967294 = x &&& 4294967294 := by
  apply Nat.eq_of_testBit_eq
  intro i
  simp only [Nat.testBit_and, Nat.testBit_or, Nat.testBit_mod_two_pow, testBit_not_allow,
    testBit_one]
  cases h : decide (i = 0) <;> cases h2 : decide (i < 32) <;> simp

theorem and_not_allow_keeps (x : Nat) :
    ((x &&& 4294967294) % 2 ^ 32) &&& 4294967294 = x &&& 4294967294 := by
  apply Nat.eq_of_testBit_eq
  intro i
  simp only [Nat.testBit_and, Nat.testBit_mod_two_pow, testBit_not_allow]
  cases h : decide (i = 0) <;> cases h2 : decide (i < 32) <;> simp

/-- The allow bit of the record at `ct` after storing `old | CT_ALLOW_MARK`. -/
theorem mark_after_allow (cts : ct_table) (ct : Nat) :
    (set_ct_mark cts ct ((cts ct).mark ||| CT_ALLOW_MARK) ct).mark &&& CT_ALLOW_MARK = 1 := by
  simp only [set_ct_mark, CT_ALLOW_MARK, U32_MOD, if_true]
  rw [mod_and_one, or_allow_and_one]

/-- The allow bit of the record at `ct` after storing `old & ~CT_ALLOW_MARK`. -/
theorem mark_after_deny (cts : ct_table) (ct : Nat) :
    (set_ct_mark cts ct ((cts ct).mark &&& NOT_CT_ALLOW_MARK) ct).mark &&& CT_ALLOW_MARK
      = 0 := by
  simp only [set_ct_mark, CT_ALLOW_MARK, U32_MOD, NOT_CT_ALLOW_MARK_eq, if_true]
  rw [mod_and_one, and_not_allow_and_one]

/-- A store through `set_ct_mark` leaves every other record as it was. -/
theorem set_ct_mark_other (cts : ct_table) (ct a m : Nat) (h : a ≠ ct) :
    set_ct_mark cts ct m a = cts a := by
  simp [set_ct_mark, h]

/-! ## The branches of the hook -/

/-- When `socket_root_root` holds. -/
theorem socket_root_root_iff (sk : sock) :
    socket_root_root sk = true ↔
      sk.sk_uid = GLOBAL_ROOT_UID ∧
        ∃ so f c, sk.sk_socket = some so ∧ so.file = some f ∧ f.f_cred = some c ∧
          (c.sgid = GLOBAL_ROOT_GID ∨ c.egid = GLOBAL_ROOT_GID) := by
  obtain ⟨uid, proto, sso⟩ := sk
  by_cases hu : uid = GLOBAL_ROOT_UID
  · rcases sso with _ | ⟨⟨_ | ⟨⟨_ | c⟩⟩⟩⟩ <;> simp [socket_root_root, uid_eq, gid_eq, hu]
  · simp [socket_root_root, uid_eq, hu]

/-- Packets that fail `tcp_skb` are accepted and nothing is written. -/
theorem hook_not_tcp (fsk : sk_buff → Option sock) (skb : Option sk_buff) (cts : ct_table)
    (h : tcp_skb skb = false) : nf_ipv4_hook_func fsk skb cts = (NF_ACCEPT, cts) := by
  simp [nf_ipv4_hook_func, h]

/-- TCP packet without a flow record: dropped, nothing written. -/
theorem hook_no_ct (fsk : sk_buff → Option sock) (s : sk_buff) (cts : ct_table)
    (h : tcp_skb (some s) = true) (hct : s.nfct = none) :
    nf_ipv4_hook_func fsk (some s) cts = (NF_DROP, cts) := by
  simp [nf_ipv4_hook_func, h, nf_ct_get, hct]

/-- TCP packet of a flow that is not new: the cached bit decides, nothing is
written. -/
theorem hook_not_new (fsk : sk_buff → Option sock) (s : sk_buff) (cts : ct_table) (ct : Nat)
    (h : tcp_skb (some s) = true) (hct : s.nfct = some ct) (hnew : s.ctinfo ≠ IP_CT_NEW) :
    nf_ipv4_hook_func fsk (some s) cts =
      (if (cts ct).mark &&& CT_ALLOW_MARK ≠ 0 then NF_ACCEPT else NF_DROP, cts) := by
  simp [nf_ipv4_hook_func, h, nf_ct_get, hct, hnew]

/-- TCP packet of a new flow without `skb->sk`: dropped, nothing written. -/
theorem hook_new_no_sk (fsk : sk_buff → Option sock) (s : sk_buff) (cts : ct_table) (ct : Nat)
    (h : tcp_skb (some s) = true) (hct : s.nfct = some ct) (hnew : s.ctinfo = IP_CT_NEW)
    (hsk : s.sk = none) :
    nf_ipv4_hook_func fsk (some s) cts = (NF_DROP, cts) := by
  simp [nf_ipv4_hook_func, h, nf_ct_get, hct, hnew, hsk]

/-- TCP packet of a new flow with `skb->sk`, full socket of protocol TCP that
passes `socket_root_root`: accepted, allow bit stored. -/
theorem hook_new_allow (fsk : sk_buff → Option sock) (s : sk_buff) (cts : ct_table) (ct : Nat)
    (sk : sock)
    (h : tcp_skb (some s) = true) (hct : s.nfct = some ct) (hnew : s.ctinfo = IP_CT_NEW)
    (hsk : s.sk ≠ none) (hfull : fsk s = some sk) (hproto : sk.sk_protocol = IPPROTO_TCP)
    (hroot : socket_root_root sk = true) :
    nf_ipv4_hook_func fsk (some s) cts =
      (NF_ACCEPT, set_ct_mark cts ct ((cts ct).mark ||| CT_ALLOW_MARK)) := by
  cases hs : s.sk with
  | none => exact absurd hs hsk
  | some sk0 => simp [nf_ipv4_hook_func, h, nf_ct_get, hct, hnew, hs, hfull, hproto, hroot]

/-- TCP packet of a new flow with `skb->sk` whose full socket is null, or not of
protocol TCP, or fails `socket_root_root`: dropped, allow bit cleared. -/
theorem hook_new_deny (fsk : sk_buff → Option sock) (s : sk_buff) (cts : ct_table) (ct : Nat)
    (h : tcp_skb (some s) = true) (hct : s.nfct = some ct) (hnew : s.ctinfo = IP_CT_NEW)
    (hsk : s.sk ≠ none)
    (hdeny : ∀ sk, fsk s = some sk → sk.sk_protocol = IPPROTO_TCP →
      socket_root_root sk = false) :
    nf_ipv4_hook_func fsk (some s) cts =
      (NF_DROP, set_ct_mark cts ct ((cts ct).mark &&& NOT_CT_ALLOW_MARK)) := by
  cases hs : s.sk with
  | none => exact absurd hs hsk
  | some sk0 =>
    cases hf : fsk s with
    | none => simp [nf_ipv4_hook_func, h, nf_ct_get, hct, hnew, hs, hf]
    | some sk =>
      by_cases hp : sk.sk_protocol = IPPROTO_TCP
      · simp [nf_ipv4_hook_func, h, nf_ct_get, hct, hnew, hs, hf, hp, hdeny sk hf hp]
      · simp [nf_ipv4_hook_func, h, nf_ct_get, hct, hnew, hs, hf, hp]

/-- The allow bit of a mark is either clear or set. -/
theorem allow_bit_cases (x : Nat) :
    x &&& CT_ALLOW_MARK = 0 ∨ x &&& CT_ALLOW_MARK = CT_ALLOW_MARK := by
  simp only [CT_ALLOW_MARK, Nat.and_one_is_mod]
  omega

/-- The two verdicts are different values. -/
theorem NF_DROP_ne_NF_ACCEPT : NF_DROP ≠ NF_ACCEPT := by
  decide

/-! ## C1: verdict of a new flow -/

/-- C1, as stated, fails: a TCP packet of a new flow with a flow record and a
socket whose user id is 0 and whose open-file credential has saved and effective
group id 0 is dropped, and the allow bit is clear afterwards, when the socket
records protocol 17 instead of TCP. -/
theorem new_flow_root_socket_wrong_protocol_dropped :
    tcp_skb (some (mk_skb IP_CT_NEW (some (mk_sock 0 17 0 0)))) = true ∧
    (mk_skb IP_CT_NEW (some (mk_sock 0 17 0 0))).nfct = some 0 ∧
    (mk_skb IP_CT_NEW (some (mk_sock 0 17 0 0))).ctinfo = IP_CT_NEW ∧
    (mk_skb IP_CT_NEW (some (mk_sock 0 17 0 0))).sk = some (mk_sock 0 17 0 0) ∧
    own_sk (mk_skb IP_CT_NEW (some (mk_sock 0 17 0 0))) = some (mk_sock 0 17 0 0) ∧
    (mk_sock 0 17 0 0).sk_uid = GLOBAL_ROOT_UID ∧
    (mk_sock 0 17 0 0).sk_socket
      = some { file := some { f_cred := some { sgid := GLOBAL_ROOT_GID,
                                               egid := GLOBAL_ROOT_GID } } } ∧
    (nf_ipv4_hook_func own_sk (some (mk_skb IP_CT_NEW (some (mk_sock 0 17 0 0))))
      (const_table 1)).1 = NF_DROP ∧
    (nf_ipv4_hook_func own_sk (some (mk_skb IP_CT_NEW (some (mk_sock 0 17 0 0))))
      (const_table 1)).1 ≠ NF_ACCEPT ∧
    ((nf_ipv4_hook_func own_sk (some (mk_skb IP_CT_NEW (some (mk_sock 0 17 0 0))))
      (const_table 1)).2 0).mark &&& CT_ALLOW_MARK = 0 := by
  decide

/-- C1 (amended): for a TCP packet of a new flow with a flow record and an owning
socket (a socket reference with full socket `sk`): if `sk` records protocol TCP,
its user id is 0 and the saved or the effective group id of its open-file
credential is 0, the hook returns `NF_ACCEPT` and the allow bit of the flow's
mark is set afterwards; if the user id is not 0, or neither group id of the
open-file credential is 0, the hook returns `NF_DROP` and the allow bit is
clear afterwards. The drop on a differing user id holds for every full socket,
with or without a socket object, file or credential. -/
theorem new_flow_verdict_follows_credentials
    (fsk : sk_buff → Option sock) (s : sk_buff) (cts : ct_table) (ct : Nat) (sk : sock)
    (htcp : tcp_skb (some s) = true) (hct : s.nfct = some ct)
    (hnew : s.ctinfo = IP_CT_NEW) (hsk : s.sk ≠ none) (hfull : fsk s = some sk) :
    (∀ so f c, sk.sk_socket = some so → so.file = some f → f.f_cred = some c →
      sk.sk_protocol = IPPROTO_TCP →
      sk.sk_uid = GLOBAL_ROOT_UID ∧ (c.sgid = GLOBAL_ROOT_GID ∨ c.egid = GLOBAL_ROOT_GID) →
        (nf_ipv4_hook_func fsk (some s) cts).1 = NF_ACCEPT ∧
        ((nf_ipv4_hook_func fsk (some s) cts).2 ct).mark &&& CT_ALLOW_MARK
          = CT_ALLOW_MARK) ∧
    (sk.sk_uid ≠ GLOBAL_ROOT_UID →
        (nf_ipv4_hook_func fsk (some s) cts).1 = NF_DROP ∧
        ((nf_ipv4_hook_func fsk (some s) cts).2 ct).mark &&& CT_ALLOW_MARK = 0) ∧
    (∀ so f c, sk.sk_socket = some so → so.file = some f → f.f_cred = some c →
      c.sgid ≠ GLOBAL_ROOT_GID ∧ c.egid ≠ GLOBAL_ROOT_GID →
        (nf_ipv4_hook_func fsk (some s) cts).1 = NF_DROP ∧
        ((nf_ipv4_hook_func fsk (some s) cts).2 ct).mark &&& CT_ALLOW_MARK = 0) := by
  have hdrop : socket_root_root sk = false →
      (nf_ipv4_hook_func fsk (some s) cts).1 = NF_DROP ∧
      ((nf_ipv4_hook_func fsk (some s) cts).2 ct).mark &&& CT_ALLOW_MARK = 0 := by
    intro hfalse
    have hdeny : ∀ sk1, fsk s = some sk1 → sk1.sk_protocol = IPPROTO_TCP →
        socket_root_root sk1 = false := by
      intro sk1 h1 _
      have hEq : sk1 = sk := Option.some.inj (h1.symm.trans hfull)
      rw [hEq]
      exact hfalse
    rw [hook_new_deny fsk s cts ct htcp hct hnew hsk hdeny]
    exact ⟨rfl, mark_after_deny cts ct⟩
  refine ⟨?_, ?_, ?_⟩
  · intro so f c hso hf hc hproto hauth
    have hroot : socket_root_root sk = true :=
      (socket_root_root_iff sk).2 ⟨hauth.1, so, f, c, hso, hf, hc, hauth.2⟩
    rw [hook_new_allow fsk s cts ct sk htcp hct hnew hsk hfull hproto hroot]
    exact ⟨rfl, mark_after_allow cts ct⟩
  · intro hu
    apply hdrop
    cases hr : socket_root_root sk with
    | false => rfl
    | true => exact absurd ((socket_root_root_iff sk).1 hr).1 hu
  · intro so f c hso hf hc hb
    apply hdrop
    cases hr : socket_root_root sk with
    | false => rfl
    | true =>
      obtain ⟨_, so1, f1, c1, hso1, hf1, hc1, hg⟩ := (socket_root_root_iff sk).1 hr
      have e1 : so1 = so := Option.some.inj (hso1.symm.trans hso)
      subst e1
      have e2 : f1 = f := Option.some.inj (hf1.symm.trans hf)
      subst e2
      have e3 : c1 = c := Option.some.inj (hc1.symm.trans hc)
      subst e3
      rcases hg with hg | hg
      · exact absurd hg hb.1
      · exact absurd hg hb.2

/-- Two instances of C1 (amended): a root socket of protocol TCP whose credential
has effective group id 0 and saved group id 5, on a flow whose mark was 6, is
accepted and the bit set; a socket of user id 1000 without a socket object, on a
flow whose mark was 7, is dropped and the bit cleared. -/
theorem new_flow_verdict_follows_credentials_witness :
    (tcp_skb (some (mk_skb IP_CT_NEW (some (mk_sock 0 6 5 0)))) = true ∧
      (mk_sock 0 6 5 0).sk_protocol = IPPROTO_TCP ∧
      (mk_sock 0 6 5 0).sk_uid = GLOBAL_ROOT_UID) ∧
    ((nf_ipv4_hook_func own_sk (some (mk_skb IP_CT_NEW (some (mk_sock 0 6 5 0))))
        (const_table 6)).1 = NF_ACCEPT ∧
      ((nf_ipv4_hook_func own_sk (some (mk_skb IP_CT_NEW (some (mk_sock 0 6 5 0))))
        (const_table 6)).2 0).mark &&& CT_ALLOW_MARK = CT_ALLOW_MARK) ∧
    (tcp_skb (some (mk_skb IP_CT_NEW
        (some { sk_uid := 1000, sk_protocol := 6, sk_socket := none }))) = true ∧
      ({ sk_uid := 1000, sk_protocol := 6, sk_socket := none } : sock).sk_uid
        ≠ GLOBAL_ROOT_UID) ∧
    ((nf_ipv4_hook_func own_sk (some (mk_skb IP_CT_NEW
        (some { sk_uid := 1000, sk_protocol := 6, sk_socket := none }))) (const_table 7)).1
        = NF_DROP ∧
      ((nf_ipv4_hook_func own_sk (some (mk_skb IP_CT_NEW
        (some { sk_uid := 1000, sk_protocol := 6, sk_socket := none }))) (const_table 7)).2
        0).mark &&& CT_ALLOW_MARK = 0) :=
  ⟨by decide,
    (new_flow_verdict_follows_credentials own_sk (mk_skb IP_CT_NEW (some (mk_sock 0 6 5 0)))
      (const_table 6) 0 (mk_sock 0 6 5 0) (by decide) rfl rfl (by decide) rfl).1
      { file := some { f_cred := some { sgid := 5, egid := 0 } } }
      { f_cred := some { sgid := 5, egid := 0 } } { sgid := 5, egid := 0 }
      rfl rfl rfl rfl ⟨rfl, Or.inr rfl⟩,
    by decide,
    (new_flow_verdict_follows_credentials own_sk
      (mk_skb IP_CT_NEW (some { sk_uid := 1000, sk_protocol := 6, sk_socket := none }))
      (const_table 7) 0 { sk_uid := 1000, sk_protocol := 6, sk_socket := none }
      (by decide) rfl rfl (by decide) rfl).2.1 (by decide)⟩

/-! ## C2: accept only with evidence -/

/-- C2: for a TCP packet the hook returns `NF_ACCEPT` only if a flow record is
present and either (a) the conntrack info is not `IP_CT_NEW` and the allow bit
of the mark is set, or (b) the conntrack info is `IP_CT_NEW`, the packet carries
a socket whose full socket is non-null and records protocol TCP, the user id is
0, the socket object, its file and the file's credential are present, and the
saved or the effective group id is 0. In every other case it returns `NF_DROP`. -/
theorem accept_only_with_evidence
    (fsk : sk_buff → Option sock) (s : sk_buff) (cts : ct_table)
    (htcp : tcp_skb (some s) = true) :
    ((nf_ipv4_hook_func fsk (some s) cts).1 = NF_ACCEPT →
      ∃ ct, s.nfct = some ct ∧
        ((s.ctinfo ≠ IP_CT_NEW ∧ (cts ct).mark &&& CT_ALLOW_MARK = CT_ALLOW_MARK) ∨
         (s.ctinfo = IP_CT_NEW ∧ s.sk ≠ none ∧
           ∃ sk so f c, fsk s = some sk ∧ sk.sk_protocol = IPPROTO_TCP ∧
             sk.sk_uid = GLOBAL_ROOT_UID ∧ sk.sk_socket = some so ∧ so.file = some f ∧
             f.f_cred = some c ∧
             (c.sgid = GLOBAL_ROOT_GID ∨ c.egid = GLOBAL_ROOT_GID)))) ∧
    (¬ (∃ ct, s.nfct = some ct ∧
        ((s.ctinfo ≠ IP_CT_NEW ∧ (cts ct).mark &&& CT_ALLOW_MARK = CT_ALLOW_MARK) ∨
         (s.ctinfo = IP_CT_NEW ∧ s.sk ≠ none ∧
           ∃ sk so f c, fsk s = some sk ∧ sk.sk_protocol = IPPROTO_TCP ∧
             sk.sk_uid = GLOBAL_ROOT_UID ∧ sk.sk_socket = some so ∧ so.file = some f ∧
             f.f_cred = some c ∧
             (c.sgid = GLOBAL_ROOT_GID ∨ c.egid = GLOBAL_ROOT_GID)))) →
      (nf_ipv4_hook_func fsk (some s) cts).1 = NF_DROP) := by
  cases hct : s.nfct with
  | none =>
    rw [hook_no_ct fsk s cts htcp hct]
    exact ⟨fun h => absurd h NF_DROP_ne_NF_ACCEPT, fun _ => rfl⟩
  | some ct =>
    by_cases hnew : s.ctinfo = IP_CT_NEW
    · by_cases hsk : s.sk = none
      · rw [hook_new_no_sk fsk s cts ct htcp hct hnew hsk]
        exact ⟨fun h => absurd h NF_DROP_ne_NF_ACCEPT, fun _ => rfl⟩
      · by_cases hallow : ∃ sk, fsk s = some sk ∧ sk.sk_protocol = IPPROTO_TCP ∧
            socket_root_root sk = true
        · obtain ⟨sk, hfull, hproto, hroot⟩ := hallow
          obtain ⟨hu, so, f, c, hso, hf, hc, hg⟩ := (socket_root_root_iff sk).1 hroot
          have hcond : ∃ ct1, some ct = some ct1 ∧
              ((s.ctinfo ≠ IP_CT_NEW ∧
                  (cts ct1).mark &&& CT_ALLOW_MARK = CT_ALLOW_MARK) ∨
                (s.ctinfo = IP_CT_NEW ∧ s.sk ≠ none ∧
                  ∃ sk so f c, fsk s = some sk ∧ sk.sk_protocol = IPPROTO_TCP ∧
                    sk.sk_uid = GLOBAL_ROOT_UID ∧ sk.sk_socket = some so ∧
                    so.file = some f ∧ f.f_cred = some c ∧
                    (c.sgid = GLOBAL_ROOT_GID ∨ c.egid = GLOBAL_ROOT_GID))) :=
            ⟨ct, rfl, Or.inr ⟨hnew, hsk, sk, so, f, c, hfull, hproto, hu, hso, hf, hc, hg⟩⟩
          exact ⟨fun _ => hcond, fun hn => absurd hcond hn⟩
        · have hdeny : ∀ sk, fsk s = some sk → sk.sk_protocol = IPPROTO_TCP →
              socket_root_root sk = false := by
            intro sk h1 h2
            cases hr : socket_root_root sk with
            | false => rfl
            | true => exact absurd ⟨sk, h1, h2, hr⟩ hallow
          rw [hook_new_deny fsk s cts ct htcp hct hnew hsk hdeny]
          exact ⟨fun h => absurd h NF_DROP_ne_NF_ACCEPT, fun _ => rfl⟩
    · rw [hook_not_new fsk s cts ct htcp hct hnew]
      rcases allow_bit_cases (cts ct).mark with hb | hb
      · have hz : ¬ ((cts ct).mark &&& CT_ALLOW_MARK ≠ 0) := fun h => h hb
        rw [if_neg hz]
        exact ⟨fun h => absurd h NF_DROP_ne_NF_ACCEPT, fun _ => rfl⟩
      · have hnz : (cts ct).mark &&& CT_ALLOW_MARK ≠ 0 := by
          rw [hb]
          decide
        rw [if_pos hnz]
        have hcond : ∃ ct1, some ct = some ct1 ∧
            ((s.ctinfo ≠ IP_CT_NEW ∧
                (cts ct1).mark &&& CT_ALLOW_MARK = CT_ALLOW_MARK) ∨
              (s.ctinfo = IP_CT_NEW ∧ s.sk ≠ none ∧
                ∃ sk so f c, fsk s = some sk ∧ sk.sk_protocol = IPPROTO_TCP ∧
                  sk.sk_uid = GLOBAL_ROOT_UID ∧ sk.sk_socket = some so ∧
                  so.file = some f ∧ f.f_cred = some c ∧
                  (c.sgid = GLOBAL_ROOT_GID ∨ c.egid = GLOBAL_ROOT_GID))) :=
          ⟨ct, rfl, Or.inl ⟨hnew, hb⟩⟩
        exact ⟨fun _ => hcond, fun hn => absurd hcond hn⟩

/-- An instance of C2: an established flow whose mark is 2 (allow bit clear)
carries a root socket, and the packet is dropped. -/
theorem accept_only_with_evidence_witness :
    tcp_skb (some (mk_skb 0 (some (mk_sock 0 6 0 0)))) = true ∧
    (nf_ipv4_hook_func own_sk (some (mk_skb 0 (some (mk_sock 0 6 0 0))))
      (const_table 2)).1 = NF_DROP :=
  ⟨by decide,
    (accept_only_with_evidence own_sk (mk_skb 0 (some (mk_sock 0 6 0 0))) (const_table 2)
      (by decide)).2
      (fun h => by
        obtain ⟨ct, _, h | h⟩ := h
        · have h2 : (2 : Nat) &&& 1 = 1 := h.2
          exact absurd h2 (by decide)
        · exact absurd h.1 (by decide))⟩

/-! ## C3: drop on missing context -/

/-- C3: for a TCP packet the hook returns `NF_DROP` (i) when no flow record is
attached, whatever the conntrack info and the socket; (ii) when the flow is new
and the packet has no socket reference; (iii) when the flow is new, the user id
of the socket is 0 and the open-file credential is unavailable: no socket
object, no file, or no credential on the file. -/
theorem drop_on_missing_context
    (fsk : sk_buff → Option sock) (s : sk_buff) (cts : ct_table)
    (htcp : tcp_skb (some s) = true) :
    (s.nfct = none → (nf_ipv4_hook_func fsk (some s) cts).1 = NF_DROP) ∧
    (s.ctinfo = IP_CT_NEW → s.sk = none →
      (nf_ipv4_hook_func fsk (some s) cts).1 = NF_DROP) ∧
    (∀ sk, s.ctinfo = IP_CT_NEW → fsk s = some sk → sk.sk_uid = GLOBAL_ROOT_UID →
      (sk.sk_socket = none ∨
        (∃ so, sk.sk_socket = some so ∧
          (so.file = none ∨ ∃ f, so.file = some f ∧ f.f_cred = none))) →
      (nf_ipv4_hook_func fsk (some s) cts).1 = NF_DROP) := by
  refine ⟨?_, ?_, ?_⟩
  · intro hct
    rw [hook_no_ct fsk s cts htcp hct]
  · intro hnew hsk
    cases hct : s.nfct with
    | none => rw [hook_no_ct fsk s cts htcp hct]
    | some ct => rw [hook_new_no_sk fsk s cts ct htcp hct hnew hsk]
  · intro sk hnew hfull _ hmiss
    cases hct : s.nfct with
    | none => rw [hook_no_ct fsk s cts htcp hct]
    | some ct =>
      by_cases hsk : s.sk = none
      · rw [hook_new_no_sk fsk s cts ct htcp hct hnew hsk]
      · have hdeny : ∀ sk1, fsk s = some sk1 → sk1.sk_protocol = IPPROTO_TCP →
            socket_root_root sk1 = false := by
          intro sk1 h1 _
          have hEq : sk1 = sk := Option.some.inj (h1.symm.trans hfull)
          subst hEq
          cases hr : socket_root_root sk1 with
          | false => rfl
          | true =>
            obtain ⟨_, so1, f1, c1, hso1, hf1, hc1, _⟩ := (socket_root_root_iff sk1).1 hr
            rcases hmiss with hm | ⟨so, hso, hm | ⟨f, hf, hm⟩⟩
            · rw [hm] at hso1
              exact Option.noConfusion hso1
            · have e1 : so1 = so := Option.some.inj (hso1.symm.trans hso)
              subst e1
              rw [hm] at hf1
              exact Option.noConfusion hf1
            · have e1 : so1 = so := Option.some.inj (hso1.symm.trans hso)
              subst e1
              have e2 : f1 = f := Option.some.inj (hf1.symm.trans hf)
              subst e2
              rw [hm] at hc1
              exact Option.noConfusion hc1
        rw [hook_new_deny fsk s cts ct htcp hct hnew hsk hdeny]

/-- An instance of C3: a new flow whose root socket has a socket object without a
file. -/
theorem drop_on_missing_context_witness :
    tcp_skb (some (mk_skb IP_CT_NEW
      (some { sk_uid := 0, sk_protocol := 6, sk_socket := some { file := none } }))) = true ∧
    (nf_ipv4_hook_func own_sk (some (mk_skb IP_CT_NEW
      (some { sk_uid := 0, sk_protocol := 6, sk_socket := some { file := none } })))
      (const_table 1)).1 = NF_DROP :=
  ⟨by decide,
    (drop_on_missing_context own_sk (mk_skb IP_CT_NEW
      (some { sk_uid := 0, sk_protocol := 6, sk_socket := some { file := none } }))
      (const_table 1) (by decide)).2.2
      { sk_uid := 0, sk_protocol := 6, sk_socket := some { file := none } }
      rfl rfl rfl (Or.inr ⟨{ file := none }, rfl, Or.inl rfl⟩)⟩

/-! ## C4: the mark after a drop on missing context -/

/-- C4, as stated, fails: a TCP packet of a new flow with a flow record whose
mark is 1 and with no socket at all is dropped, and the allow bit of the mark is
still set afterwards. -/
theorem new_flow_no_socket_keeps_allow_bit :
    tcp_skb (some (mk_skb IP_CT_NEW none)) = true ∧
    (mk_skb IP_CT_NEW none).nfct = some 0 ∧
    (mk_skb IP_CT_NEW none).ctinfo = IP_CT_NEW ∧
    (mk_skb IP_CT_NEW none).sk = none ∧
    own_sk (mk_skb IP_CT_NEW none) = none ∧
    (nf_ipv4_hook_func own_sk (some (mk_skb IP_CT_NEW none)) (const_table 1)).1 = NF_DROP ∧
    ((nf_ipv4_hook_func own_sk (some (mk_skb IP_CT_NEW none)) (const_table 1)).2 0).mark
      &&& CT_ALLOW_MARK = CT_ALLOW_MARK ∧
    ((nf_ipv4_hook_func own_sk (some (mk_skb IP_CT_NEW none)) (const_table 1)).2 0).mark
      &&& CT_ALLOW_MARK ≠ 0 := by
  decide

/-- C4 (amended): for a TCP packet of a new flow, with any prior mark. With a flow
record at `ct`: if the packet carries a socket reference and its full socket is
null, or the full socket has no open-file credential (no socket object, no file,
or no credential on the file), the hook returns `NF_DROP` and the allow bit of
the mark is clear afterwards; if the packet carries no socket reference, the
hook returns `NF_DROP` and writes nothing. Without a flow record the hook
returns `NF_DROP` and writes nothing. -/
theorem new_flow_missing_context_mark
    (fsk : sk_buff → Option sock) (s : sk_buff) (cts : ct_table)
    (htcp : tcp_skb (some s) = true) (hnew : s.ctinfo = IP_CT_NEW) :
    (∀ ct, s.nfct = some ct →
      (s.sk ≠ none →
        (fsk s = none ∨
          ∃ sk, fsk s = some sk ∧
            (sk.sk_socket = none ∨
              (∃ so, sk.sk_socket = some so ∧
                (so.file = none ∨ ∃ f, so.file = some f ∧ f.f_cred = none)))) →
        (nf_ipv4_hook_func fsk (some s) cts).1 = NF_DROP ∧
        ((nf_ipv4_hook_func fsk (some s) cts).2 ct).mark &&& CT_ALLOW_MARK = 0) ∧
      (s.sk = none → nf_ipv4_hook_func fsk (some s) cts = (NF_DROP, cts))) ∧
    (s.nfct = none → nf_ipv4_hook_func fsk (some s) cts = (NF_DROP, cts)) := by
  refine ⟨fun ct hct => ⟨?_, ?_⟩, ?_⟩
  · intro hsk hmiss
    have hdeny : ∀ sk1, fsk s = some sk1 → sk1.sk_protocol = IPPROTO_TCP →
        socket_root_root sk1 = false := by
      intro sk1 h1 _
      cases hr : socket_root_root sk1 with
      | false => rfl
      | true =>
        obtain ⟨_, so1, f1, c1, hso1, hf1, hc1, _⟩ := (socket_root_root_iff sk1).1 hr
        rcases hmiss with hn | ⟨sk, hfull, hm⟩
        · rw [hn] at h1
          exact Option.noConfusion h1
        · have hEq : sk1 = sk := Option.some.inj (h1.symm.trans hfull)
          subst hEq
          rcases hm with hm | ⟨so, hso, hm | ⟨f, hf, hm⟩⟩
          · rw [hm] at hso1
            exact Option.noConfusion hso1
          · have e1 : so1 = so := Option.some.inj (hso1.symm.trans hso)
            subst e1
            rw [hm] at hf1
            exact Option.noConfusion hf1
          · have e1 : so1 = so := Option.some.inj (hso1.symm.trans hso)
            subst e1
            have e2 : f1 = f := Option.some.inj (hf1.symm.trans hf)
            subst e2
            rw [hm] at hc1
            exact Option.noConfusion hc1
    rw [hook_new_deny fsk s cts ct htcp hct hnew hsk hdeny]
    exact ⟨rfl, mark_after_deny cts ct⟩
  · intro hsk
    exact hook_new_no_sk fsk s cts ct htcp hct hnew hsk
  · intro hct
    exact hook_no_ct fsk s cts htcp hct

/-- An instance of C4 (amended): a new flow whose mark is 7 and whose root socket
has no socket object: dropped, allow bit clear afterwards. -/
theorem new_flow_missing_context_mark_witness :
    (tcp_skb (some (mk_skb IP_CT_NEW
        (some { sk_uid := 0, sk_protocol := 6, sk_socket := none }))) = true ∧
      (mk_skb IP_CT_NEW
        (some { sk_uid := 0, sk_protocol := 6, sk_socket := none })).ctinfo = IP_CT_NEW) ∧
    ((nf_ipv4_hook_func own_sk (some (mk_skb IP_CT_NEW
        (some { sk_uid := 0, sk_protocol := 6, sk_socket := none }))) (const_table 7)).1
        = NF_DROP ∧
      ((nf_ipv4_hook_func own_sk (some (mk_skb IP_CT_NEW
        (some { sk_uid := 0, sk_protocol := 6, sk_socket := none }))) (const_table 7)).2
        0).mark &&& CT_ALLOW_MARK = 0) :=
  ⟨by decide,
    ((new_flow_missing_context_mark own_sk (mk_skb IP_CT_NEW
        (some { sk_uid := 0, sk_protocol := 6, sk_socket := none })) (const_table 7)
      (by decide) rfl).1 0 rfl).1 (by decide)
      (Or.inr ⟨{ sk_uid := 0, sk_protocol := 6, sk_socket := none }, rfl, Or.inl rfl⟩)⟩

/-! ## C5: flows that are not new -/

/-- C5: for a TCP packet with a flow record whose conntrack info is not
`IP_CT_NEW`, the hook returns `NF_ACCEPT` if and only if the allow bit of the
mark is set, returns `NF_DROP` otherwise, and leaves the table of flow records
unchanged. -/
theorem cached_verdict_decides
    (fsk : sk_buff → Option sock) (s : sk_buff) (cts : ct_table) (ct : Nat)
    (htcp : tcp_skb (some s) = true) (hct : s.nfct = some ct)
    (hnew : s.ctinfo ≠ IP_CT_NEW) :
    ((nf_ipv4_hook_func fsk (some s) cts).1 = NF_ACCEPT ↔
      (cts ct).mark &&& CT_ALLOW_MARK = CT_ALLOW_MARK) ∧
    (¬ ((cts ct).mark &&& CT_ALLOW_MARK = CT_ALLOW_MARK) →
      (nf_ipv4_hook_func fsk (some s) cts).1 = NF_DROP) ∧
    (nf_ipv4_hook_func fsk (some s) cts).2 = cts := by
  rw [hook_not_new fsk s cts ct htcp hct hnew]
  rcases allow_bit_cases (cts ct).mark with hb | hb
  · have hz : ¬ ((cts ct).mark &&& CT_ALLOW_MARK ≠ 0) := fun h => h hb
    rw [if_neg hz, hb]
    exact ⟨⟨fun h => absurd h NF_DROP_ne_NF_ACCEPT, fun h => absurd h (by decide)⟩,
      fun _ => rfl, rfl⟩
  · have hnz : (cts ct).mark &&& CT_ALLOW_MARK ≠ 0 := by
      rw [hb]
      decide
    rw [if_pos hnz, hb]
    exact ⟨⟨fun _ => rfl, fun _ => rfl⟩, fun h => absurd rfl h, rfl⟩

/-- An instance of C5: an established flow whose mark is 3 is accepted although
its socket is not a root socket. -/
theorem cached_verdict_decides_witness :
    (tcp_skb (some (mk_skb 0 (some (mk_sock 1000 6 1000 1000)))) = true ∧
      (mk_skb 0 (some (mk_sock 1000 6 1000 1000))).ctinfo ≠ IP_CT_NEW) ∧
    (nf_ipv4_hook_func own_sk (some (mk_skb 0 (some (mk_sock 1000 6 1000 1000))))
      (const_table 3)).1 = NF_ACCEPT :=
  ⟨by decide,
    (cached_verdict_decides own_sk (mk_skb 0 (some (mk_sock 1000 6 1000 1000)))
      (const_table 3) 0 (by decide) rfl (by decide)).1.2 (by decide)⟩

/-! ## Sequences of packets -/

/-- A run of TCP packets of the flow at `ct`, none of them new: every verdict is
the one cached in the mark at the start, and the table is unchanged. -/
theorem run_hook_not_new (fsk : sk_buff → Option sock) (ct : Nat) :
    ∀ (ps : List sk_buff) (cts : ct_table),
      (∀ p ∈ ps, tcp_skb (some p) = true ∧ p.nfct = some ct ∧ p.ctinfo ≠ IP_CT_NEW) →
      run_hook fsk ps cts =
        (List.replicate ps.length
          (if (cts ct).mark &&& CT_ALLOW_MARK ≠ 0 then NF_ACCEPT else NF_DROP), cts) := by
  intro ps
  induction ps with
  | nil => intro cts _; rfl
  | cons p ps ih =>
    intro cts h
    obtain ⟨h1, h2, h3⟩ := h p (List.mem_cons_self p ps)
    have hrest := ih cts (fun q hq => h q (List.mem_cons_of_mem p hq))
    simp only [run_hook, hook_not_new fsk p cts ct h1 h2 h3, hrest, List.length_cons,
      List.replicate_succ]

/-- A new TCP packet with a flow record and a socket reference: the hook accepts
and stores the old mark with the allow bit set, or drops and stores the old mark
with the allow bit cleared. -/
theorem hook_new_sk_cases (fsk : sk_buff → Option sock) (s : sk_buff) (cts : ct_table)
    (ct : Nat)
    (htcp : tcp_skb (some s) = true) (hct : s.nfct = some ct) (hnew : s.ctinfo = IP_CT_NEW)
    (hsk : s.sk ≠ none) :
    nf_ipv4_hook_func fsk (some s) cts
      = (NF_ACCEPT, set_ct_mark cts ct ((cts ct).mark ||| CT_ALLOW_MARK)) ∨
    nf_ipv4_hook_func fsk (some s) cts
      = (NF_DROP, set_ct_mark cts ct ((cts ct).mark &&& NOT_CT_ALLOW_MARK)) := by
  by_cases hallow : ∃ sk, fsk s = some sk ∧ sk.sk_protocol = IPPROTO_TCP ∧
      socket_root_root sk = true
  · obtain ⟨sk, hfull, hproto, hroot⟩ := hallow
    exact Or.inl (hook_new_allow fsk s cts ct sk htcp hct hnew hsk hfull hproto hroot)
  · have hdeny : ∀ sk, fsk s = some sk → sk.sk_protocol = IPPROTO_TCP →
        socket_root_root sk = false := by
      intro sk h1 h2
      cases hr : socket_root_root sk with
      | false => rfl
      | true => exact absurd ⟨sk, h1, h2, hr⟩ hallow
    exact Or.inr (hook_new_deny fsk s cts ct htcp hct hnew hsk hdeny)

/-- The table after one call: nothing written, or one store of the old mark with
the allow bit set or cleared. -/
theorem hook_table_cases (fsk : sk_buff → Option sock) (skb : Option sk_buff)
    (cts : ct_table) :
    (nf_ipv4_hook_func fsk skb cts).2 = cts ∨
    ∃ s ct, skb = some s ∧ tcp_skb (some s) = true ∧ s.nfct = some ct ∧
      s.ctinfo = IP_CT_NEW ∧ s.sk ≠ none ∧
      (((nf_ipv4_hook_func fsk skb cts).1 = NF_ACCEPT ∧
        (nf_ipv4_hook_func fsk skb cts).2
          = set_ct_mark cts ct ((cts ct).mark ||| CT_ALLOW_MARK)) ∨
       ((nf_ipv4_hook_func fsk skb cts).1 = NF_DROP ∧
        (nf_ipv4_hook_func fsk skb cts).2
          = set_ct_mark cts ct ((cts ct).mark &&& NOT_CT_ALLOW_MARK))) := by
  cases htcp : tcp_skb skb with
  | false => left; rw [hook_not_tcp fsk skb cts htcp]
  | true =>
    cases skb with
    | none => exact absurd htcp (by decide)
    | some s =>
      cases hct : s.nfct with
      | none => left; rw [hook_no_ct fsk s cts htcp hct]
      | some ct =>
        by_cases hnew : s.ctinfo = IP_CT_NEW
        · by_cases hsk : s.sk = none
          · left; rw [hook_new_no_sk fsk s cts ct htcp hct hnew hsk]
          · right
            refine ⟨s, ct, rfl, htcp, hct, hnew, hsk, ?_⟩
            rcases hook_new_sk_cases fsk s cts ct htcp hct hnew hsk with hr | hr
            · left
              rw [hr]
              exact ⟨rfl, rfl⟩
            · right
              rw [hr]
              exact ⟨rfl, rfl⟩
        · left; rw [hook_not_new fsk s cts ct htcp hct hnew]

/-- A call that is not the verdict of a new TCP packet with a socket reference
on the flow at `ct` leaves the record at `ct` as it was. -/
theorem hook_keeps_other_record (fsk : sk_buff → Option sock) (p : sk_buff)
    (cts : ct_table) (ct : Nat)
    (h : ¬ (tcp_skb (some p) = true ∧ p.nfct = some ct ∧ p.ctinfo = IP_CT_NEW ∧
      p.sk ≠ none)) :
    (nf_ipv4_hook_func fsk (some p) cts).2 ct = cts ct := by
  rcases hook_table_cases fsk (some p) cts with h0 | ⟨s, ct1, hs, h1, h2, h3, h4, hw⟩
  · rw [h0]
  · have hps : p = s := Option.some.inj hs
    subst hps
    have hne : ct ≠ ct1 := by
      intro heq
      subst heq
      exact h ⟨h1, h2, h3, h4⟩
    rcases hw with ⟨_, hw⟩ | ⟨_, hw⟩ <;> rw [hw] <;> exact set_ct_mark_other cts ct1 ct _ hne

/-- A run without a verdict of a new TCP packet with a socket reference on the
flow at `ct` leaves the record at `ct` as it was. -/
theorem run_hook_keeps_other_record (fsk : sk_buff → Option sock) (ct : Nat) :
    ∀ (ps : List sk_buff) (cts : ct_table),
      (∀ p ∈ ps, ¬ (tcp_skb (some p) = true ∧ p.nfct = some ct ∧ p.ctinfo = IP_CT_NEW ∧
        p.sk ≠ none)) →
      (run_hook fsk ps cts).2 ct = cts ct := by
  intro ps
  induction ps with
  | nil => intro cts _; rfl
  | cons p ps ih =>
    intro cts h
    have h1 := hook_keeps_other_record fsk p cts ct (h p (List.mem_cons_self p ps))
    have h2 := ih (nf_ipv4_hook_func fsk (some p) cts).2
      (fun q hq => h q (List.mem_cons_of_mem p hq))
    simp only [run_hook]
    rw [h2, h1]

/-- The test of the cached bit against zero is the test that the bit is set. -/
theorem cached_verdict_eq (x : Nat) :
    (if x &&& CT_ALLOW_MARK ≠ 0 then NF_ACCEPT else NF_DROP) =
      (if x &&& CT_ALLOW_MARK = CT_ALLOW_MARK then NF_ACCEPT else NF_DROP) := by
  rcases allow_bit_cases x with hb | hb
  · have h1 : ¬ (x &&& CT_ALLOW_MARK ≠ 0) := fun h => h hb
    have h2 : ¬ (x &&& CT_ALLOW_MARK = CT_ALLOW_MARK) := by
      rw [hb]
      decide
    rw [if_neg h1, if_neg h2]
  · have h1 : x &&& CT_ALLOW_MARK ≠ 0 := by
      rw [hb]
      decide
    rw [if_pos h1, if_pos hb]

/-! ## C6: replay on a flow that is not new -/

/-- C6: for a flow record at `ct` and finite sequences `ps`, `qs` of TCP packets
of that flow whose conntrack info is not `IP_CT_NEW`: every packet of `ps` gets
the same verdict, `NF_ACCEPT` if the allow bit of the mark was set before the
sequence and `NF_DROP` otherwise, and the table is left unchanged; a second run
`qs` of the same length, whatever its sockets, credentials and full-socket
resolution, returns the same verdicts and leaves the same table. -/
theorem non_new_replay_ignores_socket
    (f1 f2 : sk_buff → Option sock) (ps qs : List sk_buff) (cts : ct_table) (ct : Nat)
    (hps : ∀ p ∈ ps, tcp_skb (some p) = true ∧ p.nfct = some ct ∧ p.ctinfo ≠ IP_CT_NEW)
    (hqs : ∀ q ∈ qs, tcp_skb (some q) = true ∧ q.nfct = some ct ∧ q.ctinfo ≠ IP_CT_NEW)
    (hlen : qs.length = ps.length) :
    run_hook f1 ps cts =
      (List.replicate ps.length
        (if (cts ct).mark &&& CT_ALLOW_MARK = CT_ALLOW_MARK then NF_ACCEPT else NF_DROP),
        cts) ∧
    run_hook f2 qs cts = run_hook f1 ps cts := by
  have h1 := run_hook_not_new f1 ct ps cts hps
  have h2 := run_hook_not_new f2 ct qs cts hqs
  rw [cached_verdict_eq] at h1 h2
  refine ⟨h1, ?_⟩
  rw [h1, h2, hlen]

/-- An instance of C6: two packets on an established flow whose mark is 1, once
with a root socket and once with a non-root socket of another protocol resolved
to no full socket. -/
theorem non_new_replay_ignores_socket_witness :
    ((∀ p ∈ [mk_skb 0 (some (mk_sock 0 6 0 0)), mk_skb 1 none],
        tcp_skb (some p) = true ∧ p.nfct = some 0 ∧ p.ctinfo ≠ IP_CT_NEW) ∧
      (∀ q ∈ [mk_skb 4 (some (mk_sock 1000 17 5 5)), mk_skb 0 none],
        tcp_skb (some q) = true ∧ q.nfct = some 0 ∧ q.ctinfo ≠ IP_CT_NEW)) ∧
    (run_hook own_sk [mk_skb 0 (some (mk_sock 0 6 0 0)), mk_skb 1 none] (const_table 1) =
      (List.replicate [mk_skb 0 (some (mk_sock 0 6 0 0)), mk_skb 1 none].length
        (if (const_table 1 0).mark &&& CT_ALLOW_MARK = CT_ALLOW_MARK
          then NF_ACCEPT else NF_DROP),
        const_table 1) ∧
      run_hook (fun _ => none) [mk_skb 4 (some (mk_sock 1000 17 5 5)), mk_skb 0 none]
        (const_table 1) =
      run_hook own_sk [mk_skb 0 (some (mk_sock 0 6 0 0)), mk_skb 1 none] (const_table 1)) :=
  ⟨by decide,
    non_new_replay_ignores_socket own_sk (fun _ => none)
      [mk_skb 0 (some (mk_sock 0 6 0 0)), mk_skb 1 none]
      [mk_skb 4 (some (mk_sock 1000 17 5 5)), mk_skb 0 none] (const_table 1) 0
      (by decide) (by decide) rfl⟩

/-! ## C7: only the allow bit changes -/

/-- C7: for every packet, every table and every flow record `a`, a call of the
hook changes at most bit `0x1` of the mark: the mark after the call and the mark
before it agree under the mask `0xFFFFFFFE`, whether the call stored
`old | CT_ALLOW_MARK`, stored `old & ~CT_ALLOW_MARK`, or stored nothing. -/
theorem hook_changes_only_allow_bit
    (fsk : sk_buff → Option sock) (skb : Option sk_buff) (cts : ct_table) (a : Nat) :
    ((nf_ipv4_hook_func fsk skb cts).2 a).mark &&& 0xFFFFFFFE
      = (cts a).mark &&& 0xFFFFFFFE := by
  rcases hook_table_cases fsk skb cts with h0 | ⟨s, ct, _, _, _, _, _, hw⟩
  · rw [h0]
  · by_cases ha : a = ct
    · subst ha
      rcases hw with ⟨_, hw⟩ | ⟨_, hw⟩
      · rw [hw]
        simp only [set_ct_mark, CT_ALLOW_MARK, U32_MOD, if_true]
        exact or_allow_keeps (cts a).mark
      · rw [hw]
        simp only [set_ct_mark, NOT_CT_ALLOW_MARK_eq, U32_MOD, if_true]
        exact and_not_allow_keeps (cts a).mark
    · rcases hw with ⟨_, hw⟩ | ⟨_, hw⟩ <;> rw [hw, set_ct_mark_other cts ct a _ ha]

/-! ## C8: packets that are not TCP -/

/-- C8: a packet that is absent, has no network header, or whose network-layer
protocol is not TCP is accepted, and the table of flow records is returned
unchanged, whatever the flow record, conntrack info, mark and socket. -/
theorem non_tcp_passes_through
    (fsk : sk_buff → Option sock) (skb : Option sk_buff) (cts : ct_table)
    (h : skb = none ∨
      ∃ s, skb = some s ∧
        (s.network_header = none ∨
          ∃ ih, s.network_header = some ih ∧ ih.protocol ≠ IPPROTO_TCP)) :
    nf_ipv4_hook_func fsk skb cts = (NF_ACCEPT, cts) := by
  apply hook_not_tcp
  rcases h with h | ⟨s, hs, h | ⟨ih, hih, hp⟩⟩
  · rw [h]
    rfl
  · rw [hs]
    simp [tcp_skb, h]
  · rw [hs]
    simp [tcp_skb, hih, hp]

/-- An instance of C8: a UDP packet of a new flow with a non-root socket, on a
table whose marks are 1. -/
theorem non_tcp_passes_through_witness :
    ({ protocol := 17 } : iphdr).protocol ≠ IPPROTO_TCP ∧
    nf_ipv4_hook_func own_sk
      (some { network_header := some { protocol := 17 },
              sk := some (mk_sock 1000 17 1000 1000), nfct := some 0,
              ctinfo := IP_CT_NEW })
      (const_table 1) = (NF_ACCEPT, const_table 1) :=
  ⟨by decide,
    non_tcp_passes_through own_sk
      (some { network_header := some { protocol := 17 },
              sk := some (mk_sock 1000 17 1000 1000), nfct := some 0,
              ctinfo := IP_CT_NEW })
      (const_table 1)
      (Or.inr ⟨_, rfl, Or.inr ⟨{ protocol := 17 }, rfl, by decide⟩⟩)⟩

/-! ## C9: the verdict of the new packet and later packets -/

/-- C9, as stated, fails: on one flow record the hook processes a new TCP packet
with a root socket (accepted, verdict written), then a second new TCP packet
whose socket has no open file (dropped, verdict written again), then an
established TCP packet. Only the hook wrote the mark, and the established packet
is dropped although the first new packet was accepted. -/
theorem later_packet_differs_from_first_new_packet :
    (nf_ipv4_hook_func own_sk (some (mk_skb IP_CT_NEW (some (mk_sock 0 6 0 0))))
      (const_table 0)).1 = NF_ACCEPT ∧
    (run_hook own_sk
      [mk_skb IP_CT_NEW (some (mk_sock 0 6 0 0)),
       mk_skb IP_CT_NEW
         (some { sk_uid := 0, sk_protocol := 6, sk_socket := some { file := none } }),
       mk_skb 0 (some (mk_sock 0 6 0 0))]
      (const_table 0)).1 = [NF_ACCEPT, NF_DROP, NF_DROP] ∧
    tcp_skb (some (mk_skb 0 (some (mk_sock 0 6 0 0)))) = true ∧
    (mk_skb 0 (some (mk_sock 0 6 0 0))).nfct
      = (mk_skb IP_CT_NEW (some (mk_sock 0 6 0 0))).nfct ∧
    (mk_skb 0 (some (mk_sock 0 6 0 0))).ctinfo ≠ IP_CT_NEW ∧
    NF_DROP ≠ NF_ACCEPT := by
  decide

/-- C9 (amended): after the hook has written a verdict for a new TCP packet `s0`
with a socket reference on the flow record at `ct`, and has then processed any
sequence `mid` of packets that contains no further new TCP packet with a socket
reference on that flow, a TCP packet `q` of that flow whose conntrack info is not
`IP_CT_NEW` gets the verdict that `s0` got. -/
theorem later_packet_repeats_new_verdict
    (fsk : sk_buff → Option sock) (s0 q : sk_buff) (mid : List sk_buff)
    (cts : ct_table) (ct : Nat)
    (htcp0 : tcp_skb (some s0) = true) (hct0 : s0.nfct = some ct)
    (hnew0 : s0.ctinfo = IP_CT_NEW) (hsk0 : s0.sk ≠ none)
    (hmid : ∀ p ∈ mid, ¬ (tcp_skb (some p) = true ∧ p.nfct = some ct ∧
      p.ctinfo = IP_CT_NEW ∧ p.sk ≠ none))
    (htcpq : tcp_skb (some q) = true) (hctq : q.nfct = some ct)
    (hnewq : q.ctinfo ≠ IP_CT_NEW) :
    (nf_ipv4_hook_func fsk (some q)
      (run_hook fsk mid (nf_ipv4_hook_func fsk (some s0) cts).2).2).1
      = (nf_ipv4_hook_func fsk (some s0) cts).1 := by
  rw [hook_not_new fsk q _ ct htcpq hctq hnewq]
  rw [run_hook_keeps_other_record fsk ct mid _ hmid]
  rcases hook_new_sk_cases fsk s0 cts ct htcp0 hct0 hnew0 hsk0 with hr | hr
  · rw [hr]
    have hnz : (set_ct_mark cts ct ((cts ct).mark ||| CT_ALLOW_MARK) ct).mark
        &&& CT_ALLOW_MARK ≠ 0 := by
      rw [mark_after_allow cts ct]
      decide
    exact if_pos hnz
  · rw [hr]
    have hz : ¬ ((set_ct_mark cts ct ((cts ct).mark &&& NOT_CT_ALLOW_MARK) ct).mark
        &&& CT_ALLOW_MARK ≠ 0) := by
      rw [mark_after_deny cts ct]
      decide
    exact if_neg hz

/-- An instance of C9 (amended): a new packet with a root socket on a flow whose
mark was 4, then a UDP packet and a new packet of another flow record, then an
established packet with a non-root socket, which is accepted like the first. -/
theorem later_packet_repeats_new_verdict_witness :
    (tcp_skb (some (mk_skb IP_CT_NEW (some (mk_sock 0 6 0 0)))) = true ∧
      (mk_skb IP_CT_NEW (some (mk_sock 0 6 0 0))).sk ≠ none ∧
      (∀ p ∈ [({ network_header := some { protocol := 17 }, sk := none, nfct := some 0,
                 ctinfo := IP_CT_NEW } : sk_buff),
              { network_header := some { protocol := 6 },
                sk := some (mk_sock 1000 6 1000 1000), nfct := some 1,
                ctinfo := IP_CT_NEW }],
        ¬ (tcp_skb (some p) = true ∧ p.nfct = some 0 ∧ p.ctinfo = IP_CT_NEW ∧
          p.sk ≠ none)) ∧
      tcp_skb (some (mk_skb 0 (some (mk_sock 1000 6 1000 1000)))) = true ∧
      (mk_skb 0 (some (mk_sock 1000 6 1000 1000))).ctinfo ≠ IP_CT_NEW) ∧
    (nf_ipv4_hook_func own_sk (some (mk_skb 0 (some (mk_sock 1000 6 1000 1000))))
      (run_hook own_sk
        [{ network_header := some { protocol := 17 }, sk := none, nfct := some 0,
           ctinfo := IP_CT_NEW },
         { network_header := some { protocol := 6 },
           sk := some (mk_sock 1000 6 1000 1000), nfct := some 1,
           ctinfo := IP_CT_NEW }]
        (nf_ipv4_hook_func own_sk (some (mk_skb IP_CT_NEW (some (mk_sock 0 6 0 0))))
          (const_table 4)).2).2).1
      = (nf_ipv4_hook_func own_sk (some (mk_skb IP_CT_NEW (some (mk_sock 0 6 0 0))))
          (const_table 4)).1 :=
  ⟨by decide,
    later_packet_repeats_new_verdict own_sk (mk_skb IP_CT_NEW (some (mk_sock 0 6 0 0)))
      (mk_skb 0 (some (mk_sock 1000 6 1000 1000)))
      [{ network_header := some { protocol := 17 }, sk := none, nfct := some 0,
         ctinfo := IP_CT_NEW },
       { network_header := some { protocol := 6 },
         sk := some (mk_sock 1000 6 1000 1000), nfct := some 1,
         ctinfo := IP_CT_NEW }]
      (const_table 4) 0 (by decide) rfl rfl (by decide) (by decide) (by decide) rfl
      (by decide)⟩

/-! ## C10: socket of another protocol -/

/-- C10: for a TCP packet of a new flow with a flow record at `ct` and a socket
reference whose full socket `sk` records a protocol other than TCP, the hook
returns `NF_DROP` and the allow bit of the mark is clear afterwards. The result
is the store of the old mark with the allow bit cleared, an expression in which
no field of `sk` occurs: user id and group ids are not consulted. -/
theorem wrong_protocol_socket_dropped
    (fsk : sk_buff → Option sock) (s : sk_buff) (cts : ct_table) (ct : Nat) (sk : sock)
    (htcp : tcp_skb (some s) = true) (hct : s.nfct = some ct)
    (hnew : s.ctinfo = IP_CT_NEW) (hsk : s.sk ≠ none) (hfull : fsk s = some sk)
    (hproto : sk.sk_protocol ≠ IPPROTO_TCP) :
    nf_ipv4_hook_func fsk (some s) cts
      = (NF_DROP, set_ct_mark cts ct ((cts ct).mark &&& NOT_CT_ALLOW_MARK)) ∧
    (nf_ipv4_hook_func fsk (some s) cts).1 = NF_DROP ∧
    ((nf_ipv4_hook_func fsk (some s) cts).2 ct).mark &&& CT_ALLOW_MARK = 0 := by
  have hdeny : ∀ sk1, fsk s = some sk1 → sk1.sk_protocol = IPPROTO_TCP →
      socket_root_root sk1 = false := by
    intro sk1 h1 h2
    have hEq : sk1 = sk := Option.some.inj (h1.symm.trans hfull)
    subst hEq
    exact absurd h2 hproto
  rw [hook_new_deny fsk s cts ct htcp hct hnew hsk hdeny]
  exact ⟨rfl, rfl, mark_after_deny cts ct⟩

/-- An instance of C10: a root socket with root group ids that records protocol
17, on a flow whose mark was 3. -/
theorem wrong_protocol_socket_dropped_witness :
    (tcp_skb (some (mk_skb IP_CT_NEW (some (mk_sock 0 17 0 0)))) = true ∧
      (mk_sock 0 17 0 0).sk_protocol ≠ IPPROTO_TCP ∧
      (mk_sock 0 17 0 0).sk_uid = GLOBAL_ROOT_UID) ∧
    ((nf_ipv4_hook_func own_sk (some (mk_skb IP_CT_NEW (some (mk_sock 0 17 0 0))))
        (const_table 3)).1 = NF_DROP ∧
      ((nf_ipv4_hook_func own_sk (some (mk_skb IP_CT_NEW (some (mk_sock 0 17 0 0))))
        (const_table 3)).2 0).mark &&& CT_ALLOW_MARK = 0) :=
  ⟨by decide,
    (wrong_protocol_socket_dropped own_sk (mk_skb IP_CT_NEW (some (mk_sock 0 17 0 0)))
      (const_table 3) 0 (mk_sock 0 17 0 0) (by decide) rfl rfl (by decide) rfl
      (by decide)).2⟩

/-! ## C11: recomputing the verdict of a new flow -/

theorem or_allow_twice (x : Nat) :
    ((x ||| 1) % 2 ^ 32 ||| 1) % 2 ^ 32 = (x ||| 1) % 2 ^ 32 := by
  apply Nat.eq_of_testBit_eq
  intro i
  simp only [Nat.testBit_or, Nat.testBit_mod_two_pow, testBit_one]
  cases h : decide (i = 0) <;> cases h2 : decide (i < 32) <;> simp

theorem and_not_allow_twice (x : Nat) :
    ((x &&& 4294967294) % 2 ^ 32 &&& 4294967294) % 2 ^ 32 = (x &&& 4294967294) % 2 ^ 32 := by
  apply Nat.eq_of_testBit_eq
  intro i
  simp only [Nat.testBit_and, Nat.testBit_mod_two_pow, testBit_not_allow]
  cases h : decide (i = 0) <;> cases h2 : decide (i < 32) <;> simp

/-- Storing the allow verdict a second time leaves the table of the first
store. -/
theorem set_ct_mark_allow_twice (cts : ct_table) (ct : Nat) :
    set_ct_mark (set_ct_mark cts ct ((cts ct).mark ||| CT_ALLOW_MARK)) ct
        ((set_ct_mark cts ct ((cts ct).mark ||| CT_ALLOW_MARK) ct).mark ||| CT_ALLOW_MARK)
      = set_ct_mark cts ct ((cts ct).mark ||| CT_ALLOW_MARK) := by
  funext a
  by_cases ha : a = ct
  · subst ha
    simp only [set_ct_mark, CT_ALLOW_MARK, U32_MOD, if_true]
    rw [or_allow_twice]
  · simp [set_ct_mark, ha]

/-- Storing the deny verdict a second time leaves the table of the first
store. -/
theorem set_ct_mark_deny_twice (cts : ct_table) (ct : Nat) :
    set_ct_mark (set_ct_mark cts ct ((cts ct).mark &&& NOT_CT_ALLOW_MARK)) ct
        ((set_ct_mark cts ct ((cts ct).mark &&& NOT_CT_ALLOW_MARK) ct).mark
          &&& NOT_CT_ALLOW_MARK)
      = set_ct_mark cts ct ((cts ct).mark &&& NOT_CT_ALLOW_MARK) := by
  funext a
  by_cases ha : a = ct
  · subst ha
    simp only [set_ct_mark, NOT_CT_ALLOW_MARK_eq, U32_MOD, if_true]
    rw [and_not_allow_twice]
  · simp [set_ct_mark, ha]

/-- C11: for a flow record at `ct`, any table of marks and a new TCP packet `s`
of that flow, processing `s` a second time, right after the first, returns the
same verdict and leaves the same table as processing it once: the run over
`[s, s]` returns the verdict of the single call twice and ends in the table of
the single call. -/
theorem new_flow_verdict_idempotent
    (fsk : sk_buff → Option sock) (s : sk_buff) (cts : ct_table) (ct : Nat)
    (htcp : tcp_skb (some s) = true) (hct : s.nfct = some ct)
    (hnew : s.ctinfo = IP_CT_NEW) :
    nf_ipv4_hook_func fsk (some s) (nf_ipv4_hook_func fsk (some s) cts).2
      = nf_ipv4_hook_func fsk (some s) cts ∧
    run_hook fsk [s, s] cts
      = ([(nf_ipv4_hook_func fsk (some s) cts).1, (nf_ipv4_hook_func fsk (some s) cts).1],
         (nf_ipv4_hook_func fsk (some s) cts).2) := by
  have key : nf_ipv4_hook_func fsk (some s) (nf_ipv4_hook_func fsk (some s) cts).2
      = nf_ipv4_hook_func fsk (some s) cts := by
    by_cases hsk : s.sk = none
    · rw [hook_new_no_sk fsk s cts ct htcp hct hnew hsk]
      exact hook_new_no_sk fsk s cts ct htcp hct hnew hsk
    · by_cases hallow : ∃ sk, fsk s = some sk ∧ sk.sk_protocol = IPPROTO_TCP ∧
          socket_root_root sk = true
      · obtain ⟨sk, hfull, hproto, hroot⟩ := hallow
        rw [hook_new_allow fsk s cts ct sk htcp hct hnew hsk hfull hproto hroot]
        rw [hook_new_allow fsk s _ ct sk htcp hct hnew hsk hfull hproto hroot]
        rw [set_ct_mark_allow_twice]
      · have hdeny : ∀ sk, fsk s = some sk → sk.sk_protocol = IPPROTO_TCP →
            socket_root_root sk = false := by
          intro sk h1 h2
          cases hr : socket_root_root sk with
          | false => rfl
          | true => exact absurd ⟨sk, h1, h2, hr⟩ hallow
        rw [hook_new_deny fsk s cts ct htcp hct hnew hsk hdeny]
        rw [hook_new_deny fsk s _ ct htcp hct hnew hsk hdeny]
        rw [set_ct_mark_deny_twice]
  refine ⟨key, ?_⟩
  simp only [run_hook]
  rw [key]

/-- An instance of C11: a new packet with a root socket on a flow whose mark was
4, processed twice. -/
theorem new_flow_verdict_idempotent_witness :
    (tcp_skb (some (mk_skb IP_CT_NEW (some (mk_sock 0 6 0 0)))) = true ∧
      (mk_skb IP_CT_NEW (some (mk_sock 0 6 0 0))).nfct = some 0 ∧
      (mk_skb IP_CT_NEW (some (mk_sock 0 6 0 0))).ctinfo = IP_CT_NEW) ∧
    (nf_ipv4_hook_func own_sk (some (mk_skb IP_CT_NEW (some (mk_sock 0 6 0 0))))
        (nf_ipv4_hook_func own_sk (some (mk_skb IP_CT_NEW (some (mk_sock 0 6 0 0))))
          (const_table 4)).2
      = nf_ipv4_hook_func own_sk (some (mk_skb IP_CT_NEW (some (mk_sock 0 6 0 0))))
          (const_table 4)) :=
  ⟨by decide,
    (new_flow_verdict_idempotent own_sk (mk_skb IP_CT_NEW (some (mk_sock 0 6 0 0)))
      (const_table 4) 0 (by decide) rfl rfl).1⟩

/-! ## C12: the lock around the mark -/

/-- Accesses on a new flow with a socket reference when the verdict is allow. -/
theorem accesses_new_allow (fsk : sk_buff → Option sock) (s : sk_buff) (cts : ct_table)
    (ct : Nat) (sk : sock)
    (h : tcp_skb (some s) = true) (hct : s.nfct = some ct) (hnew : s.ctinfo = IP_CT_NEW)
    (hsk : s.sk ≠ none) (hfull : fsk s = some sk) (hproto : sk.sk_protocol = IPPROTO_TCP)
    (hroot : socket_root_root sk = true) :
    nf_ipv4_hook_func_accesses fsk (some s) cts =
      .read_once ct :: set_ct_mark_accesses ct ((cts ct).mark ||| CT_ALLOW_MARK) := by
  cases hs : s.sk with
  | none => exact absurd hs hsk
  | some sk0 =>
    simp [nf_ipv4_hook_func_accesses, h, nf_ct_get, hct, hnew, hs, hfull, hproto, hroot]

/-- Accesses on a new flow with a socket reference when the verdict is deny. -/
theorem accesses_new_deny (fsk : sk_buff → Option sock) (s : sk_buff) (cts : ct_table)
    (ct : Nat)
    (h : tcp_skb (some s) = true) (hct : s.nfct = some ct) (hnew : s.ctinfo = IP_CT_NEW)
    (hsk : s.sk ≠ none)
    (hdeny : ∀ sk, fsk s = some sk → sk.sk_protocol = IPPROTO_TCP →
      socket_root_root sk = false) :
    nf_ipv4_hook_func_accesses fsk (some s) cts =
      .read_once ct :: set_ct_mark_accesses ct ((cts ct).mark &&& NOT_CT_ALLOW_MARK) := by
  cases hs : s.sk with
  | none => exact absurd hs hsk
  | some sk0 =>
    cases hf : fsk s with
    | none => simp [nf_ipv4_hook_func_accesses, h, nf_ct_get, hct, hnew, hs, hf]
    | some sk =>
      by_cases hp : sk.sk_protocol = IPPROTO_TCP
      · simp [nf_ipv4_hook_func_accesses, h, nf_ct_get, hct, hnew, hs, hf, hp,
          hdeny sk hf hp]
      · simp [nf_ipv4_hook_func_accesses, h, nf_ct_get, hct, hnew, hs, hf, hp]

/-- The accesses of one call together with the table it leaves: no access and no
write; one lock-free read on a flow that is not new; or, on a new flow with a
socket reference, a lock-free read followed by lock, store, unlock on the
packet's own record, the stored value being the one `set_ct_mark` wrote. -/
theorem hook_accesses_cases (fsk : sk_buff → Option sock) (skb : Option sk_buff)
    (cts : ct_table) :
    (nf_ipv4_hook_func_accesses fsk skb cts = [] ∧
      (nf_ipv4_hook_func fsk skb cts).2 = cts) ∨
    (∃ s ct, skb = some s ∧ s.nfct = some ct ∧ s.ctinfo ≠ IP_CT_NEW ∧
      nf_ipv4_hook_func_accesses fsk skb cts = [.read_once ct] ∧
      (nf_ipv4_hook_func fsk skb cts).2 = cts) ∨
    (∃ s ct v, skb = some s ∧ s.nfct = some ct ∧ s.ctinfo = IP_CT_NEW ∧
      nf_ipv4_hook_func_accesses fsk skb cts
        = [.read_once ct, .spin_lock_bh ct, .store_mark ct (v % U32_MOD),
           .spin_unlock_bh ct] ∧
      (nf_ipv4_hook_func fsk skb cts).2 = set_ct_mark cts ct v) := by
  cases htcp : tcp_skb skb with
  | false =>
    left
    simp [nf_ipv4_hook_func_accesses, nf_ipv4_hook_func, htcp]
  | true =>
    cases skb with
    | none => exact absurd htcp (by decide)
    | some s =>
      cases hct : s.nfct with
      | none =>
        left
        simp [nf_ipv4_hook_func_accesses, nf_ipv4_hook_func, htcp, nf_ct_get, hct]
      | some ct =>
        by_cases hnew : s.ctinfo = IP_CT_NEW
        · by_cases hsk : s.sk = none
          · left
            simp [nf_ipv4_hook_func_accesses, nf_ipv4_hook_func, htcp, nf_ct_get, hct,
              hnew, hsk]
          · right
            right
            by_cases hallow : ∃ sk, fsk s = some sk ∧ sk.sk_protocol = IPPROTO_TCP ∧
                socket_root_root sk = true
            · obtain ⟨sk, hfull, hproto, hroot⟩ := hallow
              refine ⟨s, ct, (cts ct).mark ||| CT_ALLOW_MARK, rfl, hct, hnew, ?_, ?_⟩
              · rw [accesses_new_allow fsk s cts ct sk htcp hct hnew hsk hfull hproto hroot]
                rfl
              · rw [hook_new_allow fsk s cts ct sk htcp hct hnew hsk hfull hproto hroot]
            · have hdeny : ∀ sk, fsk s = some sk → sk.sk_protocol = IPPROTO_TCP →
                  socket_root_root sk = false := by
                intro sk h1 h2
                cases hr : socket_root_root sk with
                | false => rfl
                | true => exact absurd ⟨sk, h1, h2, hr⟩ hallow
              refine ⟨s, ct, (cts ct).mark &&& NOT_CT_ALLOW_MARK, rfl, hct, hnew, ?_, ?_⟩
              · rw [accesses_new_deny fsk s cts ct htcp hct hnew hsk hdeny]
                rfl
              · rw [hook_new_deny fsk s cts ct htcp hct hnew hsk hdeny]
        · right
          left
          refine ⟨s, ct, rfl, hct, hnew, ?_, ?_⟩
          · simp [nf_ipv4_hook_func_accesses, htcp, nf_ct_get, hct, hnew]
          · simp [nf_ipv4_hook_func, htcp, nf_ct_get, hct, hnew]

/-- Storing a value already truncated to 32 bits is the store of the value. -/
theorem set_ct_mark_mod (cts : ct_table) (ct v : Nat) :
    set_ct_mark cts ct (v % U32_MOD) = set_ct_mark cts ct v := by
  funext a
  by_cases ha : a = ct
  · simp [set_ct_mark, ha, Nat.mod_mod]
  · simp [set_ct_mark, ha]

/-- The steps of the verdict write, run alone on a record whose mark is `m`, end
with the mark that the hook stores. -/
theorem verdict_write_steps_alone (allow : Bool) (m : Nat) :
    run_schedule [false, false, false, false]
        { steps := verdict_write_steps allow, old := 0 } { steps := [], old := 0 }
        { mark := m, owner := none }
      = some ((if allow then m ||| CT_ALLOW_MARK else m &&& NOT_CT_ALLOW_MARK) % U32_MOD) := by
  rfl

theorem or_after_and_not (x : Nat) :
    ((x &&& 4294967294) % 2 ^ 32 ||| 1) % 2 ^ 32 = (x ||| 1) % 2 ^ 32 := by
  apply Nat.eq_of_testBit_eq
  intro i
  simp only [Nat.testBit_and, Nat.testBit_or, Nat.testBit_mod_two_pow, testBit_not_allow,
    testBit_one]
  cases h : decide (i = 0) <;> cases h2 : decide (i < 32) <;> simp

theorem and_not_after_or (x : Nat) :
    ((x ||| 1) % 2 ^ 32 &&& 4294967294) % 2 ^ 32 = (x &&& 4294967294) % 2 ^ 32 := by
  apply Nat.eq_of_testBit_eq
  intro i
  simp only [Nat.testBit_and, Nat.testBit_or, Nat.testBit_mod_two_pow, testBit_not_allow,
    testBit_one]
  cases h : decide (i = 0) <;> cases h2 : decide (i < 32) <;> simp

/-- A verdict store computed from the initial mark or from a final state is a
final state. -/
theorem verdict_store_closed (m old : Nat) (allow : Bool) (h : verdict_or_initial m old) :
    verdict_state m
      ((if allow = true then old ||| CT_ALLOW_MARK else old &&& NOT_CT_ALLOW_MARK)
        % U32_MOD) := by
  rcases h with h | h | h
  · subst h
    cases allow
    · exact Or.inr rfl
    · exact Or.inl rfl
  · subst h
    cases allow
    · right
      simp only [CT_ALLOW_MARK, NOT_CT_ALLOW_MARK_eq, U32_MOD, Bool.false_eq_true, if_false]
      exact and_not_after_or m
    · left
      simp only [CT_ALLOW_MARK, U32_MOD, if_true]
      exact or_allow_twice m
  · subst h
    cases allow
    · right
      simp only [NOT_CT_ALLOW_MARK_eq, U32_MOD, Bool.false_eq_true, if_false]
      exact and_not_allow_twice m
    · left
      simp only [CT_ALLOW_MARK, NOT_CT_ALLOW_MARK_eq, U32_MOD, if_true]
      exact or_after_and_not m

/-- The position of a thread stays valid when the record changes in a way that
keeps a final state a final state. -/
theorem verdict_thread_inv_of_mark (m : Nat) (allow : Bool) (t : thread)
    (c c1 : shared_ct) (h : verdict_thread_inv m allow t c)
    (hm : verdict_state m c.mark → verdict_state m c1.mark) :
    verdict_thread_inv m allow t c1 := by
  rcases h with h | h | h | ⟨h, hs⟩
  · exact Or.inl h
  · exact Or.inr (Or.inl h)
  · exact Or.inr (Or.inr (Or.inl h))
  · exact Or.inr (Or.inr (Or.inr ⟨h, hm hs⟩))

/-- One step of a thread that runs a verdict write keeps the mark at the initial
value or a final state, and keeps both threads at valid positions. -/
theorem verdict_step_inv (m : Nat) (a1 a2 me : Bool) (t other t1 : thread)
    (c c1 : shared_ct)
    (hc : verdict_or_initial m c.mark) (ht : verdict_thread_inv m a1 t c)
    (ho : verdict_thread_inv m a2 other c)
    (hstep : run_step me t c = some (t1, c1)) :
    verdict_or_initial m c1.mark ∧ verdict_thread_inv m a1 t1 c1 ∧
      verdict_thread_inv m a2 other c1 := by
  obtain ⟨steps, old⟩ := t
  obtain ⟨mark, owner⟩ := c
  rcases ht with h | ⟨h, hold⟩ | ⟨h, hold⟩ | ⟨h | h, hs⟩
  · simp only [verdict_write_steps] at h
    subst h
    simp only [run_step, Option.some.injEq, Prod.mk.injEq] at hstep
    obtain ⟨e1, e2⟩ := hstep
    subst e1
    subst e2
    exact ⟨hc, Or.inr (Or.inl ⟨rfl, hc⟩), ho⟩
  · simp only [verdict_write_steps, List.drop] at h
    subst h
    cases owner with
    | some o => simp [run_step] at hstep
    | none =>
      simp only [run_step, Option.some.injEq, Prod.mk.injEq] at hstep
      obtain ⟨e1, e2⟩ := hstep
      subst e1
      subst e2
      exact ⟨hc, Or.inr (Or.inr (Or.inl ⟨rfl, hold⟩)),
        verdict_thread_inv_of_mark m a2 other _ _ ho (fun x => x)⟩
  · simp only [verdict_write_steps, List.drop] at h
    subst h
    simp only [run_step, Option.some.injEq, Prod.mk.injEq] at hstep
    obtain ⟨e1, e2⟩ := hstep
    subst e1
    subst e2
    have hnew := verdict_store_closed m old a1 hold
    exact ⟨Or.inr hnew, Or.inr (Or.inr (Or.inr ⟨Or.inl rfl, hnew⟩)),
      verdict_thread_inv_of_mark m a2 other _ _ ho (fun _ => hnew)⟩
  · simp only [verdict_write_steps, List.drop] at h
    subst h
    simp only [run_step, Option.some.injEq, Prod.mk.injEq] at hstep
    obtain ⟨e1, e2⟩ := hstep
    subst e1
    subst e2
    exact ⟨hc, Or.inr (Or.inr (Or.inr ⟨Or.inr rfl, hs⟩)),
      verdict_thread_inv_of_mark m a2 other _ _ ho (fun x => x)⟩
  · simp only at h
    subst h
    simp [run_step] at hstep

/-- Every schedule of two verdict writes on one record that runs to the end
leaves one of the two final states. -/
theorem run_schedule_verdict_inv (m : Nat) (a1 a2 : Bool) :
    ∀ (sched : List Bool) (a b : thread) (c : shared_ct) (r : Nat),
      verdict_or_initial m c.mark → verdict_thread_inv m a1 a c →
      verdict_thread_inv m a2 b c → run_schedule sched a b c = some r →
      verdict_state m r := by
  intro sched
  induction sched with
  | nil =>
    intro a b c r _ ha _ hrun
    obtain ⟨steps, old⟩ := a
    obtain ⟨bsteps, bold⟩ := b
    cases steps with
    | cons x xs => simp [run_schedule] at hrun
    | nil =>
      cases bsteps with
      | cons y ys => simp [run_schedule] at hrun
      | nil =>
        simp only [run_schedule, Option.some.injEq] at hrun
        subst hrun
        rcases ha with h | ⟨h, _⟩ | ⟨h, _⟩ | ⟨_, hs⟩
        · simp [verdict_write_steps] at h
        · simp [verdict_write_steps] at h
        · simp [verdict_write_steps] at h
        · exact hs
  | cons who sched ih =>
    intro a b c r hc ha hb hrun
    cases who with
    | false =>
      cases hstep : run_step false a c with
      | none => simp [run_schedule, hstep] at hrun
      | some p =>
        obtain ⟨a1s, c1⟩ := p
        simp only [run_schedule, hstep] at hrun
        obtain ⟨h1, h2, h3⟩ := verdict_step_inv m a1 a2 false a b a1s c c1 hc ha hb hstep
        exact ih a1s b c1 r h1 h2 h3 hrun
    | true =>
      cases hstep : run_step true b c with
      | none => simp [run_schedule, hstep] at hrun
      | some p =>
        obtain ⟨b1s, c1⟩ := p
        simp only [run_schedule, hstep] at hrun
        obtain ⟨h1, h2, h3⟩ := verdict_step_inv m a2 a1 true b a b1s c c1 hc hb ha hstep
        exact ih a b1s c1 r h1 h3 h2 hrun

/-- C12, as stated, fails. For a new TCP packet with a root socket on a flow
whose mark is 0, the accesses of the hook are: read of the mark, lock, store of
1, unlock; the read of the old mark comes before the lock is taken, so not every
access is made under the lock. On a flow that is not new the only access is a
read with no lock taken. With the read outside the critical section an update
of another bit is lost: when a second writer sets bit `0x2` inside one critical
section of the same lock between the read and the lock of the verdict write,
the final mark is 1, while both orders without overlap give 3. -/
theorem verdict_read_outside_critical_section :
    nf_ipv4_hook_func_accesses own_sk (some (mk_skb IP_CT_NEW (some (mk_sock 0 6 0 0))))
        (const_table 0)
      = [.read_once 0, .spin_lock_bh 0, .store_mark 0 1, .spin_unlock_bh 0] ∧
    all_accesses_locked []
      (nf_ipv4_hook_func_accesses own_sk (some (mk_skb IP_CT_NEW (some (mk_sock 0 6 0 0))))
        (const_table 0)) = false ∧
    nf_ipv4_hook_func_accesses own_sk (some (mk_skb 0 (some (mk_sock 0 6 0 0))))
        (const_table 1)
      = [.read_once 0] ∧
    all_accesses_locked []
      (nf_ipv4_hook_func_accesses own_sk (some (mk_skb 0 (some (mk_sock 0 6 0 0))))
        (const_table 1)) = false ∧
    run_schedule [false, true, true, true, true, false, false, false]
        { steps := verdict_write_steps true, old := 0 }
        { steps := locked_or_steps 2, old := 0 } { mark := 0, owner := none }
      = some 1 ∧
    run_schedule [false, false, false, false, true, true, true, true]
        { steps := verdict_write_steps true, old := 0 }
        { steps := locked_or_steps 2, old := 0 } { mark := 0, owner := none }
      = some 3 ∧
    run_schedule [true, true, true, true, false, false, false, false]
        { steps := verdict_write_steps true, old := 0 }
        { steps := locked_or_steps 2, old := 0 } { mark := 0, owner := none }
      = some 3 := by
  decide

/-- C12 (amended): in every call of `nf_ipv4_hook_func` every store to a flow's
mark is made under that flow record's own lock. The stores of a call lie in
critical sections that are opened and closed within the call, every access of
the call (read, lock, store, unlock) concerns the record attached to the packet,
and the stores, applied in order, give the table the hook leaves. On a flow
that is not new the call makes one read of the mark and takes no lock. For a
verdict write on a new flow the accesses other than reads are exactly: lock of
the packet's record, store of the updated mark, unlock of the same record. No
interleaving of two verdict writes of the hook on one flow record that runs to
the end leaves a value other than the two final states, the initial mark with
the allow bit set or with it cleared, so no other bit is changed; and the
schedule in which both writes read before either takes the lock runs to the end
and leaves the value of the second store. -/
theorem verdict_store_inside_critical_section
    (fsk : sk_buff → Option sock) (skb : Option sk_buff) (cts : ct_table) :
    stores_in_critical_sections [] (nf_ipv4_hook_func_accesses fsk skb cts) = true ∧
    apply_accesses (nf_ipv4_hook_func_accesses fsk skb cts) cts
      = (nf_ipv4_hook_func fsk skb cts).2 ∧
    (∀ a ∈ nf_ipv4_hook_func_accesses fsk skb cts,
      ∃ s, skb = some s ∧ s.nfct = some (access_record a)) ∧
    (∀ s ct, skb = some s → tcp_skb (some s) = true → s.nfct = some ct →
      s.ctinfo ≠ IP_CT_NEW →
      nf_ipv4_hook_func_accesses fsk skb cts = [.read_once ct]) ∧
    (∀ s ct, skb = some s → tcp_skb (some s) = true → s.nfct = some ct →
      s.ctinfo = IP_CT_NEW → s.sk ≠ none →
      (nf_ipv4_hook_func_accesses fsk skb cts).filter (fun a => !is_read_once a)
        = [.spin_lock_bh ct, .store_mark ct ((nf_ipv4_hook_func fsk skb cts).2 ct).mark,
           .spin_unlock_bh ct]) ∧
    (∀ (sched : List Bool) (a1 a2 : Bool) (o1 o2 m r : Nat),
      run_schedule sched { steps := verdict_write_steps a1, old := o1 }
          { steps := verdict_write_steps a2, old := o2 } { mark := m, owner := none }
        = some r →
      r = (m ||| CT_ALLOW_MARK) % U32_MOD ∨ r = (m &&& NOT_CT_ALLOW_MARK) % U32_MOD) ∧
    (∀ (a1 a2 : Bool) (o1 o2 m : Nat),
      run_schedule [false, true, false, false, false, true, true, true]
          { steps := verdict_write_steps a1, old := o1 }
          { steps := verdict_write_steps a2, old := o2 } { mark := m, owner := none }
        = some ((if a2 = true then m ||| CT_ALLOW_MARK else m &&& NOT_CT_ALLOW_MARK)
            % U32_MOD)) := by
  refine ⟨?_, ?_, ?_, ?_, ?_, ?_, ?_⟩
  · rcases hook_accesses_cases fsk skb cts with
      ⟨ha, _⟩ | ⟨s, ct, _, _, _, ha, _⟩ | ⟨s, ct, v, _, _, _, ha, _⟩
    · rw [ha]
      rfl
    · rw [ha]
      rfl
    · rw [ha]
      simp [stores_in_critical_sections]
  · rcases hook_accesses_cases fsk skb cts with
      ⟨ha, ht⟩ | ⟨s, ct, _, _, _, ha, ht⟩ | ⟨s, ct, v, _, _, _, ha, ht⟩
    · rw [ha, ht]
      rfl
    · rw [ha, ht]
      rfl
    · rw [ha, ht]
      simp only [apply_accesses]
      exact set_ct_mark_mod cts ct v
  · intro a hmem
    rcases hook_accesses_cases fsk skb cts with
      ⟨ha, _⟩ | ⟨s, ct, hs, hct, _, ha, _⟩ | ⟨s, ct, v, hs, hct, _, ha, _⟩
    · rw [ha] at hmem
      exact absurd hmem (List.not_mem_nil a)
    · rw [ha] at hmem
      refine ⟨s, hs, ?_⟩
      simp only [List.mem_singleton] at hmem
      rw [hmem]
      exact hct
    · rw [ha] at hmem
      refine ⟨s, hs, ?_⟩
      simp only [List.mem_cons, List.mem_singleton, List.not_mem_nil, or_false] at hmem
      rcases hmem with h | h | h | h <;> rw [h] <;> exact hct
  · intro s ct hs htcp hct hnew
    subst hs
    simp [nf_ipv4_hook_func_accesses, htcp, nf_ct_get, hct, hnew]
  · intro s ct hs htcp hct hnew hsk
    subst hs
    by_cases hallow : ∃ sk, fsk s = some sk ∧ sk.sk_protocol = IPPROTO_TCP ∧
        socket_root_root sk = true
    · obtain ⟨sk, hfull, hproto, hroot⟩ := hallow
      rw [accesses_new_allow fsk s cts ct sk htcp hct hnew hsk hfull hproto hroot,
        hook_new_allow fsk s cts ct sk htcp hct hnew hsk hfull hproto hroot]
      simp [set_ct_mark_accesses, set_ct_mark, is_read_once]
    · have hdeny : ∀ sk, fsk s = some sk → sk.sk_protocol = IPPROTO_TCP →
          socket_root_root sk = false := by
        intro sk h1 h2
        cases hr : socket_root_root sk with
        | false => rfl
        | true => exact absurd ⟨sk, h1, h2, hr⟩ hallow
      rw [accesses_new_deny fsk s cts ct htcp hct hnew hsk hdeny,
        hook_new_deny fsk s cts ct htcp hct hnew hsk hdeny]
      simp [set_ct_mark_accesses, set_ct_mark, is_read_once]
  · intro sched a1 a2 o1 o2 m r hrun
    exact run_schedule_verdict_inv m a1 a2 sched _ _ _ r (Or.inl rfl) (Or.inl rfl)
      (Or.inl rfl) hrun
  · intro a1 a2 o1 o2 m
    rfl

/-- Two instances of C12 (amended): a new packet with a root socket on a flow
whose mark is 4 takes the lock of record 0, stores 5 and releases the lock; and
an allow write and a deny write on a mark of 6 that both read before either
takes the lock end in 6, the initial mark with the allow bit cleared. -/
theorem verdict_store_inside_critical_section_witness :
    (tcp_skb (some (mk_skb IP_CT_NEW (some (mk_sock 0 6 0 0)))) = true ∧
      (mk_skb IP_CT_NEW (some (mk_sock 0 6 0 0))).ctinfo = IP_CT_NEW ∧
      (mk_skb IP_CT_NEW (some (mk_sock 0 6 0 0))).sk ≠ none) ∧
    (nf_ipv4_hook_func_accesses own_sk (some (mk_skb IP_CT_NEW (some (mk_sock 0 6 0 0))))
        (const_table 4)).filter (fun a => !is_read_once a)
      = [.spin_lock_bh 0, .store_mark 0 5, .spin_unlock_bh 0] ∧
    run_schedule [false, true, false, false, false, true, true, true]
        { steps := verdict_write_steps true, old := 0 }
        { steps := verdict_write_steps false, old := 0 } { mark := 6, owner := none }
      = some 6 ∧
    (6 = (6 ||| CT_ALLOW_MARK) % U32_MOD ∨ 6 = (6 &&& NOT_CT_ALLOW_MARK) % U32_MOD) :=
  ⟨by decide,
    (verdict_store_inside_critical_section own_sk
      (some (mk_skb IP_CT_NEW (some (mk_sock 0 6 0 0)))) (const_table 4)).2.2.2.2.1
      (mk_skb IP_CT_NEW (some (mk_sock 0 6 0 0))) 0 rfl (by decide) rfl rfl (by decide),
    by decide,
    (verdict_store_inside_critical_section own_sk
      (some (mk_skb IP_CT_NEW (some (mk_sock 0 6 0 0)))) (const_table 4)).2.2.2.2.2.1
      [false, true, false, false, false, true, true, true] true false 0 0 6 6
      (by decide)⟩

/-! ## C13: `socket_root_root` and its reference predicate -/

/-- C13: for every socket, `socket_root_root` equals the reference predicate: it
returns true if and only if the user id is 0, the socket has a socket object
with an open file, the file has a credential, and the saved or the effective
group id of the credential is 0. In particular it returns false whenever the
user id is not 0, whatever the group ids and whether or not the open-file
credential is available. -/
theorem socket_root_root_matches_reference (sk : sock) :
    socket_root_root sk = socket_root_root_ref sk ∧
    (socket_root_root sk = true ↔
      sk.sk_uid = 0 ∧
        ∃ so f c, sk.sk_socket = some so ∧ so.file = some f ∧ f.f_cred = some c ∧
          (c.sgid = 0 ∨ c.egid = 0)) ∧
    (sk.sk_uid ≠ 0 → socket_root_root sk = false) := by
  refine ⟨?_, socket_root_root_iff sk, ?_⟩
  · obtain ⟨uid, proto, sso⟩ := sk
    by_cases hu : uid = 0
    · subst hu
      rcases sso with _ | ⟨⟨_ | ⟨⟨_ | c⟩⟩⟩⟩ <;> rfl
    · simp [socket_root_root, socket_root_root_ref, uid_eq, GLOBAL_ROOT_UID, hu]
  · intro hu
    cases hr : socket_root_root sk with
    | false => rfl
    | true => exact absurd ((socket_root_root_iff sk).1 hr).1 hu

/-- An instance of C13: a socket of user id 1000 whose credential has group ids
0 is rejected. -/
theorem socket_root_root_matches_reference_witness :
    (mk_sock 1000 6 0 0).sk_uid ≠ 0 ∧ socket_root_root (mk_sock 1000 6 0 0) = false :=
  ⟨by decide, (socket_root_root_matches_reference (mk_sock 1000 6 0 0)).2.2 (by decide)⟩

/-! ## C14: the prior mark of a new flow -/

/-- C14: for a TCP packet of a new flow with a flow record at `ct` and two
tables `cts1`, `cts2` of prior marks: the hook returns the same verdict on
both; when the packet carries a socket reference, the allow bit of the mark
after the call is the same on both; and when the packet carries a socket
reference and the verdict is `NF_DROP`, the allow bit is clear afterwards,
whatever it was before. -/
theorem new_flow_verdict_ignores_prior_mark
    (fsk : sk_buff → Option sock) (s : sk_buff) (cts1 cts2 : ct_table) (ct : Nat)
    (htcp : tcp_skb (some s) = true) (hct : s.nfct = some ct)
    (hnew : s.ctinfo = IP_CT_NEW) :
    (nf_ipv4_hook_func fsk (some s) cts1).1 = (nf_ipv4_hook_func fsk (some s) cts2).1 ∧
    (s.sk ≠ none →
      ((nf_ipv4_hook_func fsk (some s) cts1).2 ct).mark &&& CT_ALLOW_MARK
        = ((nf_ipv4_hook_func fsk (some s) cts2).2 ct).mark &&& CT_ALLOW_MARK) ∧
    (s.sk ≠ none → (nf_ipv4_hook_func fsk (some s) cts1).1 = NF_DROP →
      ((nf_ipv4_hook_func fsk (some s) cts1).2 ct).mark &&& CT_ALLOW_MARK = 0) := by
  by_cases hsk : s.sk = none
  · rw [hook_new_no_sk fsk s cts1 ct htcp hct hnew hsk,
      hook_new_no_sk fsk s cts2 ct htcp hct hnew hsk]
    exact ⟨rfl, fun h => absurd hsk h, fun h => absurd hsk h⟩
  · by_cases hallow : ∃ sk, fsk s = some sk ∧ sk.sk_protocol = IPPROTO_TCP ∧
        socket_root_root sk = true
    · obtain ⟨sk, hfull, hproto, hroot⟩ := hallow
      rw [hook_new_allow fsk s cts1 ct sk htcp hct hnew hsk hfull hproto hroot,
        hook_new_allow fsk s cts2 ct sk htcp hct hnew hsk hfull hproto hroot]
      refine ⟨rfl, fun _ => ?_, fun _ h => absurd h.symm NF_DROP_ne_NF_ACCEPT⟩
      rw [mark_after_allow cts1 ct, mark_after_allow cts2 ct]
    · have hdeny : ∀ sk, fsk s = some sk → sk.sk_protocol = IPPROTO_TCP →
          socket_root_root sk = false := by
        intro sk h1 h2
        cases hr : socket_root_root sk with
        | false => rfl
        | true => exact absurd ⟨sk, h1, h2, hr⟩ hallow
      rw [hook_new_deny fsk s cts1 ct htcp hct hnew hsk hdeny,
        hook_new_deny fsk s cts2 ct htcp hct hnew hsk hdeny]
      refine ⟨rfl, fun _ => ?_, fun _ _ => mark_after_deny cts1 ct⟩
      rw [mark_after_deny cts1 ct, mark_after_deny cts2 ct]

/-- An instance of C14: a new packet with a non-root socket on a flow whose prior
mark is 1, compared with prior mark 0; the set allow bit is revoked. -/
theorem new_flow_verdict_ignores_prior_mark_witness :
    (tcp_skb (some (mk_skb IP_CT_NEW (some (mk_sock 1000 6 0 0)))) = true ∧
      (mk_skb IP_CT_NEW (some (mk_sock 1000 6 0 0))).ctinfo = IP_CT_NEW ∧
      (mk_skb IP_CT_NEW (some (mk_sock 1000 6 0 0))).sk ≠ none ∧
      (const_table 1 0).mark &&& CT_ALLOW_MARK = CT_ALLOW_MARK) ∧
    ((nf_ipv4_hook_func own_sk (some (mk_skb IP_CT_NEW (some (mk_sock 1000 6 0 0))))
        (const_table 1)).1
      = (nf_ipv4_hook_func own_sk (some (mk_skb IP_CT_NEW (some (mk_sock 1000 6 0 0))))
        (const_table 0)).1 ∧
     ((nf_ipv4_hook_func own_sk (some (mk_skb IP_CT_NEW (some (mk_sock 1000 6 0 0))))
        (const_table 1)).2 0).mark &&& CT_ALLOW_MARK = 0) :=
  ⟨by decide,
    (new_flow_verdict_ignores_prior_mark own_sk
      (mk_skb IP_CT_NEW (some (mk_sock 1000 6 0 0))) (const_table 1) (const_table 0) 0
      (by decide) rfl rfl).1,
    (new_flow_verdict_ignores_prior_mark own_sk
      (mk_skb IP_CT_NEW (some (mk_sock 1000 6 0 0))) (const_table 1) (const_table 0) 0
      (by decide) rfl rfl).2.2 (by decide) (by decide)⟩

/-! ## C15: module entry and exit -/

/-- C15: `_module_entry` sets the hook of the global record to
`nf_ipv4_hook_func`, its protocol family to `NFPROTO_IPV4`, its hook number to
`NF_INET_LOCAL_OUT` and its priority to `NF_IP_PRI_FILTER`, then registers that
record; it returns 0 if and only if the registration returned 0 and returns
`-EINVAL` for every non-zero registration result; `_module_exit` after it
unregisters the same record and leaves the global as it is. -/
theorem module_entry_registers_hook
    (nf_register_net_hook : nf_hook_ops → Int) (st : module_state) :
    (_module_entry nf_register_net_hook st).2.g_nf_hook_op.hook = some nf_ipv4_hook_func ∧
    (_module_entry nf_register_net_hook st).2.g_nf_hook_op.pf = NFPROTO_IPV4 ∧
    (_module_entry nf_register_net_hook st).2.g_nf_hook_op.hooknum = NF_INET_LOCAL_OUT ∧
    (_module_entry nf_register_net_hook st).2.g_nf_hook_op.priority = NF_IP_PRI_FILTER ∧
    (_module_entry nf_register_net_hook st).2.calls
      = st.calls ++ [.register (_module_entry nf_register_net_hook st).2.g_nf_hook_op] ∧
    ((_module_entry nf_register_net_hook st).1 = 0 ↔
      nf_register_net_hook (_module_entry nf_register_net_hook st).2.g_nf_hook_op = 0) ∧
    (nf_register_net_hook (_module_entry nf_register_net_hook st).2.g_nf_hook_op ≠ 0 →
      (_module_entry nf_register_net_hook st).1 = -EINVAL) ∧
    (_module_exit (_module_entry nf_register_net_hook st).2).calls
      = (_module_entry nf_register_net_hook st).2.calls
          ++ [.unregister (_module_entry nf_register_net_hook st).2.g_nf_hook_op] ∧
    (_module_exit (_module_entry nf_register_net_hook st).2).g_nf_hook_op
      = (_module_entry nf_register_net_hook st).2.g_nf_hook_op := by
  have hst : (_module_entry nf_register_net_hook st).2 =
      { g_nf_hook_op :=
          { hook := some nf_ipv4_hook_func, pf := NFPROTO_IPV4,
            hooknum := NF_INET_LOCAL_OUT, priority := NF_IP_PRI_FILTER },
        calls := st.calls ++
          [.register { hook := some nf_ipv4_hook_func, pf := NFPROTO_IPV4,
                       hooknum := NF_INET_LOCAL_OUT, priority := NF_IP_PRI_FILTER }] } := by
    by_cases h : nf_register_net_hook
        { hook := some nf_ipv4_hook_func, pf := NFPROTO_IPV4,
          hooknum := NF_INET_LOCAL_OUT, priority := NF_IP_PRI_FILTER } = 0
    · simp [_module_entry, h]
    · simp [_module_entry, h]
  have hret : (_module_entry nf_register_net_hook st).1 =
      if nf_register_net_hook
          { hook := some nf_ipv4_hook_func, pf := NFPROTO_IPV4,
            hooknum := NF_INET_LOCAL_OUT, priority := NF_IP_PRI_FILTER } = 0
        then 0 else -EINVAL := by
    unfold _module_entry
    by_cases h : nf_register_net_hook
        { hook := some nf_ipv4_hook_func, pf := NFPROTO_IPV4,
          hooknum := NF_INET_LOCAL_OUT, priority := NF_IP_PRI_FILTER } = 0
    · simp [h]
    · simp [h]
  rw [hst, hret]
  refine ⟨rfl, rfl, rfl, rfl, rfl, ?_, ?_, rfl, rfl⟩
  · constructor
    · intro h
      by_contra hne
      rw [if_neg hne] at h
      exact absurd h (by decide)
    · intro h
      rw [if_pos h]
  · intro h
    rw [if_neg h]

/-- An instance of C15: a registration that fails with -12 makes the entry
return -22. -/
theorem module_entry_registers_hook_witness :
    (fun _ => (-12 : Int))
        (_module_entry (fun _ => -12)
          { g_nf_hook_op := { hook := none, pf := 0, hooknum := 0, priority := 0 },
            calls := [] }).2.g_nf_hook_op ≠ 0 ∧
    (_module_entry (fun _ => -12)
      { g_nf_hook_op := { hook := none, pf := 0, hooknum := 0, priority := 0 },
        calls := [] }).1 = -22 :=
  ⟨by decide,
    (module_entry_registers_hook (fun _ => -12)
      { g_nf_hook_op := { hook := none, pf := 0, hooknum := 0, priority := 0 },
        calls := [] }).2.2.2.2.2.2.1 (by decide)⟩

end Splatter
